import Mathlib

/-!
# Verification of `script.js` (printing-company website)

A shallow embedding of the client-side script: the form validation
(`validateField`, `validateForm`, `handleFormSubmission`), the portfolio
filter with its show/hide timers, the lightbox listeners, the `debounce`
and `throttle` wrappers and the registration of the scroll listeners.

JavaScript strings are sequences of UTF-16 code units; `length`, `trim`
and the (non-unicode) regular expressions of the script all work on code
units, so a string is modelled as the list of its code units.
-/

namespace Script

/-! ## Strings -/

/-- A JavaScript string: the list of its UTF-16 code units. -/
abbrev JSString := List Nat

/-- UTF-16 encoding of one character. -/
def utf16 (c : Char) : List Nat :=
  if c.toNat < 65536 then [c.toNat]
  else [55296 + (c.toNat - 65536) / 1024, 56320 + (c.toNat - 65536) % 1024]

/-- A string literal of the script as a JavaScript string. -/
def lit (s : String) : JSString := s.toList.flatMap utf16

/-- ECMAScript `WhiteSpace` and `LineTerminator` code units: what
`String.prototype.trim` strips and what `\s` matches. -/
def isWhiteSpace (c : Nat) : Bool :=
  c == 9 || c == 10 || c == 11 || c == 12 || c == 13 || c == 32 || c == 160 ||
  c == 5760 || (8192 ≤ c && c ≤ 8202) || c == 8232 || c == 8233 || c == 8239 ||
  c == 8287 || c == 12288 || c == 65279

/-- Strip leading white space. -/
def trimStart (s : JSString) : JSString := s.dropWhile isWhiteSpace

/-- Strip trailing white space. -/
def trimEnd (s : JSString) : JSString := (s.reverse.dropWhile isWhiteSpace).reverse

/-- The method `String.prototype.trim`. -/
def trim (s : JSString) : JSString := trimEnd (trimStart s)

/-! ## Regular expressions

Both regular expressions of the script are anchored with `^` and `$` and are
a sequence of quantified character classes, so `test` is a whole-string
match of a list of pieces. -/

/-- One quantified character class: `cls{min,max}` (`max = none` is unbounded). -/
structure Piece where
  cls : Nat → Bool
  min : Nat
  max : Option Nat

/-- May a class that already consumed `n` code units consume one more. -/
def underMax (max : Option Nat) (n : Nat) : Bool :=
  match max with
  | none => true
  | some m => decide (n < m)

/-- Backtracking match of one quantified class followed by the continuation
`k`: `n` code units were consumed so far; the longer repetition is tried
first (greedy), then the continuation at the current position. -/
def matchRep (cls : Nat → Bool) (min : Nat) (max : Option Nat) (k : JSString → Bool) :
    Nat → JSString → Bool
  | n, [] => decide (min ≤ n) && k []
  | n, c :: t =>
    (underMax max n && cls c && matchRep cls min max k (n + 1) t) ||
      (decide (min ≤ n) && k (c :: t))

/-- Match of `^p₁p₂…pₙ$` against the whole input. -/
def matchPieces : List Piece → JSString → Bool
  | [] => fun s => s.isEmpty
  | p :: ps => matchRep p.cls p.min p.max (matchPieces ps) 0

/-- The method `RegExp.prototype.test` for an anchored regular expression. -/
def test (re : List Piece) (s : JSString) : Bool := matchPieces re s

/-- The class `[^\s@]`. -/
def notSpaceAt (c : Nat) : Bool := !(isWhiteSpace c || c == 64)

/-- The class `\d`: ASCII digits. -/
def isDigit (c : Nat) : Bool := decide (48 ≤ c) && decide (c ≤ 57)

/-- The class `[\d\s\-\(\)]`. -/
def phoneClass (c : Nat) : Bool :=
  isDigit c || isWhiteSpace c || c == 45 || c == 40 || c == 41

/-- A class of one literal code unit. -/
def isChar (a : Nat) (c : Nat) : Bool := c == a

/-- The quantifier `+`: one or more. -/
def plus (cls : Nat → Bool) : Piece := ⟨cls, 1, none⟩

/-- A literal character. -/
def one (cls : Nat → Bool) : Piece := ⟨cls, 1, some 1⟩

/-- The quantifier `?`: zero or one. -/
def opt (cls : Nat → Bool) : Piece := ⟨cls, 0, some 1⟩

/-- The quantifier `{n,}`: at least `n`. -/
def atLeast (n : Nat) (cls : Nat → Bool) : Piece := ⟨cls, n, none⟩

/-- The regular expression `/^[^\s@]+@[^\s@]+\.[^\s@]+$/`. -/
def emailRegex : List Piece :=
  [plus notSpaceAt, one (isChar 64), plus notSpaceAt, one (isChar 46), plus notSpaceAt]

/-- The regular expression `/^[+]?[\d\s\-\(\)]{8,}$/`. -/
def phoneRegex : List Piece :=
  [opt (isChar 43), atLeast 8 phoneClass]

/-! ## Contact form -/

/-- A form control as `validateField` sees it. -/
structure Field where
  /-- The property `field.name`. -/
  name : JSString
  /-- The property `field.value`. -/
  value : JSString
  /-- The result of `field.hasAttribute('required')`. -/
  required : Bool
  /-- The result of `field.closest('.form-group')`: the enclosing form group, `none` for `null` -/
  formGroup : Option Nat
  deriving DecidableEq

/-- The part of the document the form code reads and writes. -/
structure FormDoc where
  /-- The result of `document.getElementById(id)` for the form controls, `none` for `null` -/
  fieldById : JSString → Option Field
  /-- Whether form group `g` carries the class `error` -/
  groupError : Nat → Bool
  /-- The `textContent` of the element with the given id, `none` when
  `document.getElementById` returns `null` -/
  textContent : JSString → Option JSString

/-- An exception thrown by the script. -/
inductive JSError where
  | typeError
  deriving DecidableEq, Repr

/-- The required-field message `'هذا الحقل مطلوب'`. -/
def requiredMessage : JSString := lit "هذا الحقل مطلوب"

/-- The name message `'الاسم يجب أن يكون أكثر من حرفين'`. -/
def nameMessage : JSString := lit "الاسم يجب أن يكون أكثر من حرفين"

/-- The invalid-email message `'يرجى إدخال بريد إلكتروني صحيح'`. -/
def emailMessage : JSString := lit "يرجى إدخال بريد إلكتروني صحيح"

/-- The invalid-phone message `'يرجى إدخال رقم هاتف صحيح'`. -/
def phoneMessage : JSString := lit "يرجى إدخال رقم هاتف صحيح"

/-- The message-length message `'الرسالة يجب أن تكون أكثر من 10 أحرف'`. -/
def messageMessage : JSString := lit "الرسالة يجب أن تكون أكثر من 10 أحرف"

/-- The `switch (fieldName)` of `validateField`, entered with `isValid`
true and a non-empty `fieldValue`: the resulting `(isValid, errorMessage)`. -/
def specificValidation (fieldName fieldValue : JSString) : Bool × JSString :=
  if fieldName = lit "name" then
    if fieldValue.length < 2 then (false, nameMessage) else (true, [])
  else if fieldName = lit "email" then
    if !test emailRegex fieldValue then (false, emailMessage) else (true, [])
  else if fieldName = lit "phone" then
    if !test phoneRegex fieldValue then (false, phoneMessage) else (true, [])
  else if fieldName = lit "message" then
    if fieldValue.length < 10 then (false, messageMessage) else (true, [])
  else (true, [])

/-- The validation decision of `validateField`: the values of `isValid`
and `errorMessage` when the display step is reached. -/
def checkField (field : Field) : Bool × JSString :=
  let fieldName := field.name
  let fieldValue := trim field.value
  -- Required field validation
  let (isValid, errorMessage) :=
    if field.required && fieldValue.isEmpty then (false, requiredMessage) else (true, [])
  -- Specific field validations
  if isValid && !fieldValue.isEmpty then specificValidation fieldName fieldValue
  else (isValid, errorMessage)

/-- The statement `if (errorElement) errorElement.textContent = text`. -/
def setText (tc : JSString → Option JSString) (id text : JSString) :
    JSString → Option JSString :=
  fun i => if i = id then (tc i).map (fun _ => text) else tc i

/-- The calls `classList.add('error')` and `classList.remove('error')` on a form group. -/
def setGroupError (ge : Nat → Bool) (g : Nat) (b : Bool) : Nat → Bool :=
  fun i => if i = g then b else ge i

/-- The function `validateField(field)`: the document after the call and the returned
boolean, or the `TypeError` thrown when `field` or its form group is `null`. -/
def validateField (d : FormDoc) : Option Field → Except JSError (FormDoc × Bool)
  | none => .error .typeError
  | some field =>
    match field.formGroup with
    | none => .error .typeError
    | some formGroup =>
      let errorId := field.name ++ lit "Error"
      -- Clear previous error state
      let d1 : FormDoc :=
        { d with groupError := setGroupError d.groupError formGroup false
                 textContent := setText d.textContent errorId [] }
      let (isValid, errorMessage) := checkField field
      -- Display error if field is invalid
      let d2 : FormDoc :=
        if !isValid then
          { d1 with groupError := setGroupError d1.groupError formGroup true
                    textContent := setText d1.textContent errorId errorMessage }
        else d1
      .ok (d2, isValid)

/-- The function `validateForm()`: validates the fields with the ids `name`,
`email`, `phone`, `service` and `message` in this order. -/
def validateForm (d : FormDoc) : Except JSError (FormDoc × Bool) := do
  let isValid := true
  let name := d.fieldById (lit "name")
  let email := d.fieldById (lit "email")
  let phone := d.fieldById (lit "phone")
  let service := d.fieldById (lit "service")
  let message := d.fieldById (lit "message")
  -- Validate name
  let (d, r) ← validateField d name
  let isValid := if !r then false else isValid
  -- Validate email
  let (d, r) ← validateField d email
  let isValid := if !r then false else isValid
  -- Validate phone
  let (d, r) ← validateField d phone
  let isValid := if !r then false else isValid
  -- Validate service selection
  let (d, r) ← validateField d service
  let isValid := if !r then false else isValid
  -- Validate message
  let (d, r) ← validateField d message
  let isValid := if !r then false else isValid
  return (d, isValid)

/-- What a run of `handleFormSubmission(event)` did. -/
structure Submission where
  /-- Whether `event.preventDefault()` was called. -/
  defaultPrevented : Bool
  /-- The document after the handler and whether `submitForm()` was called,
  or the exception that left the handler. -/
  result : Except JSError (FormDoc × Bool)

/-- The function `handleFormSubmission(event)`. The body of `submitForm`
(button text and the 2000 ms timer) is not modelled, only the call. -/
def handleFormSubmission (d : FormDoc) : Submission :=
  -- event.preventDefault()
  match validateForm d with
  | .error e => { defaultPrevented := true, result := .error e }
  | .ok (d1, isValid) =>
    if isValid then { defaultPrevented := true, result := .ok (d1, true) }
    else { defaultPrevented := true, result := .ok (d1, false) }

/-! ### The accepted values in the words of the specification -/

/-- The part of an address before its first `@`. -/
def beforeAt (v : JSString) : JSString := v.takeWhile (fun c => c != 64)

/-- The part of an address after its first `@`. -/
def afterAt (v : JSString) : JSString := (v.dropWhile (fun c => c != 64)).drop 1

/-- An accepted e-mail value: no white space, exactly one `@`, at least one
character before it, and after it a `.` that is neither the first nor the
last character of that part. -/
def EmailSpec (v : JSString) : Prop :=
  (∀ c ∈ v, isWhiteSpace c = false) ∧ v.count 64 = 1 ∧ beforeAt v ≠ [] ∧
    ∃ i, 0 < i ∧ i + 1 < (afterAt v).length ∧ (afterAt v)[i]? = some 46

/-- An accepted phone value: an optional single leading `+` followed by at
least 8 characters, each a digit, white space, `-`, `(` or `)`. -/
def PhoneSpec (v : JSString) : Prop :=
  ∃ body : JSString, (v = body ∨ v = 43 :: body) ∧ 8 ≤ body.length ∧
    ∀ c ∈ body, isDigit c = true ∨ isWhiteSpace c = true ∨ c = 45 ∨ c = 40 ∨ c = 41

/-- An ASCII letter. -/
def isLetter (c : Nat) : Bool :=
  (decide (65 ≤ c) && decide (c ≤ 90)) || (decide (97 ≤ c) && decide (c ≤ 122))

/-- A document without form controls, error elements or error classes. -/
def emptyDoc : FormDoc :=
  { fieldById := fun _ => none, groupError := fun _ => false, textContent := fun _ => none }

/-- A document whose only error element is `serviceError`. -/
def serviceDoc : FormDoc :=
  { fieldById := fun _ => none, groupError := fun _ => false,
    textContent := fun i => if i = lit "serviceError" then some [] else none }

/-- The value without its optional leading `+`. -/
def afterPlus : JSString → JSString
  | 43 :: t => t
  | v => v

/-- A required `service` field holding two spaces, in form group 0. -/
def blankService : Field :=
  { name := lit "service", value := lit "  ", required := true, formGroup := some 0 }

/-- An `email` field in form group 1. -/
def emailField (value : JSString) : Field :=
  { name := lit "email", value := value, required := true, formGroup := some 1 }

/-- A `phone` field in form group 2. -/
def phoneField (value : JSString) : Field :=
  { name := lit "phone", value := value, required := true, formGroup := some 2 }

/-- A `name` field in form group 3. -/
def nameField (value : JSString) : Field :=
  { name := lit "name", value := value, required := true, formGroup := some 3 }

/-- A `message` field in form group 4. -/
def messageField (value : JSString) : Field :=
  { name := lit "message", value := value, required := true, formGroup := some 4 }

/-- The boolean `validateField(f)` returns: `r`, whatever the document. -/
def Returns (f : Field) (r : Bool) : Prop :=
  ∀ d : FormDoc, ∃ d', validateField d (some f) = .ok (d', r)

/-- A document with the five form controls, each in its own form group. -/
def sampleDoc : FormDoc :=
  { fieldById := fun i =>
      if i = lit "name" then some (nameField (lit "Mona"))
      else if i = lit "email" then some (emailField (lit "mona@example"))
      else if i = lit "phone" then some (phoneField (lit "+20 100 555 1234"))
      else if i = lit "service" then some blankService
      else if i = lit "message" then some (messageField (lit "Business cards, 500 pieces"))
      else none
    groupError := fun _ => false
    textContent := fun _ => some [] }

/-! ## Portfolio filter -/

/-- A portfolio item: its `data-category` attribute (`none` for `null`), the
three inline styles the script writes and whether it has the class `hide`. -/
structure Item where
  category : Option JSString
  display : JSString
  opacity : JSString
  transform : JSString
  hide : Bool
  deriving DecidableEq

/-- The two timer callbacks of `filterPortfolioItems`, for the item at an index. -/
inductive ItemAction where
  /-- The 100 ms callback: `opacity = '1'`, `transform = 'translateY(0)'`. -/
  | reveal (i : Nat)
  /-- The 300 ms callback: `display = 'none'`, `classList.add('hide')`. -/
  | conceal (i : Nat)
  deriving DecidableEq

/-- A pending timer: the time at which it is due and its callback. -/
structure ItemTimer where
  due : Nat
  action : ItemAction
  deriving DecidableEq

/-- The portfolio and the timers of the page. The queue is kept in firing
order: by due time, and by creation order among equal due times. -/
structure Portfolio where
  now : Nat
  items : List Item
  timers : List ItemTimer
  deriving DecidableEq

/-- Queue a timer behind every timer that is due no later. -/
def enqueue (t : ItemTimer) : List ItemTimer → List ItemTimer
  | [] => [t]
  | x :: q => if x.due ≤ t.due then x :: enqueue t q else t :: x :: q

/-- The call `setTimeout(callback, delay)`. -/
def setItemTimeout (p : Portfolio) (action : ItemAction) (delay : Nat) : Portfolio :=
  { p with timers := enqueue ⟨p.now + delay, action⟩ p.timers }

/-- Apply `f` to the item at index `i`. -/
def modifyItem (p : Portfolio) (i : Nat) (f : Item → Item) : Portfolio :=
  { p with items := p.items.modify f i }

/-- The condition `category === 'all' || itemCategory === category`. -/
def matchesCategory (category : Option JSString) (item : Item) : Bool :=
  decide (category = some (lit "all")) || decide (item.category = category)

/-- The body of the `forEach` of `filterPortfolioItems` for the item at index `i`. -/
def filterItem (category : Option JSString) (p : Portfolio) (i : Nat) : Portfolio :=
  match p.items[i]? with
  | none => p
  | some item =>
    if matchesCategory category item then
      let p := modifyItem p i (fun it => { it with display := lit "block", hide := false })
      -- Add entrance animation
      setItemTimeout p (.reveal i) 100
    else
      let p := modifyItem p i
        (fun it => { it with opacity := lit "0", transform := lit "translateY(20px)" })
      setItemTimeout p (.conceal i) 300

/-- The function `filterPortfolioItems(category)`. -/
def filterPortfolioItems (category : Option JSString) (p : Portfolio) : Portfolio :=
  (List.range p.items.length).foldl (filterItem category) p

/-- Run one timer callback. -/
def runAction (p : Portfolio) : ItemAction → Portfolio
  | .reveal i =>
    modifyItem p i (fun it => { it with opacity := lit "1", transform := lit "translateY(0)" })
  | .conceal i =>
    modifyItem p i (fun it => { it with display := lit "none", hide := true })

/-- Fire the timers of a queue in order, the clock following their due times. -/
def fireQueue : List ItemTimer → Portfolio → Portfolio
  | [], p => p
  | t :: q, p => fireQueue q (runAction { p with now := max p.now t.due, timers := q } t.action)

/-- Let all pending timers fire. -/
def runTimers (p : Portfolio) : Portfolio := fireQueue p.timers p

/-- Let the clock advance to `t`: the timers due by then fire, the others
stay pending. -/
def advanceTo (t : Nat) (p : Portfolio) : Portfolio :=
  let due := p.timers.takeWhile (fun x => decide (x.due ≤ t))
  let rest := p.timers.dropWhile (fun x => decide (x.due ≤ t))
  let p := fireQueue due { p with timers := due }
  { p with now := max p.now t, timers := rest }

/-- An item is shown: display `block`, opacity `1`, no class `hide`. -/
def Item.shown (it : Item) : Bool :=
  decide (it.display = lit "block") && decide (it.opacity = lit "1") && !it.hide

/-- An item is hidden: display `none` and the class `hide`. -/
def Item.hidden (it : Item) : Bool :=
  decide (it.display = lit "none") && it.hide

/-- The item a timer callback works on. -/
def ItemAction.target : ItemAction → Nat
  | .reveal i => i
  | .conceal i => i

/-- What a timer callback does to its item. -/
def applyAction (it : Item) : ItemAction → Item
  | .reveal _ => { it with opacity := lit "1", transform := lit "translateY(0)" }
  | .conceal _ => { it with display := lit "none", hide := true }

/-- The timers of a queue that work on the item at index `i`. -/
def timersOf (i : Nat) (q : List ItemTimer) : List ItemTimer :=
  q.filter (fun t => t.action.target == i)

/-- What `filterPortfolioItems` does to an item at once. -/
def syncStep (category : Option JSString) (it : Item) : Item :=
  if matchesCategory category it then { it with display := lit "block", hide := false }
  else { it with opacity := lit "0", transform := lit "translateY(20px)" }

/-- The timer `filterPortfolioItems` sets for the item at index `i`. -/
def timerFor (category : Option JSString) (now i : Nat) (it : Item) : ItemTimer :=
  if matchesCategory category it then ⟨now + 100, .reveal i⟩ else ⟨now + 300, .conceal i⟩

/-- The item after a filter call and its timer, when nothing else interferes:
shown if it matches, hidden if it does not. -/
def settled (category : Option JSString) (it : Item) : Item :=
  if matchesCategory category it then
    { it with display := lit "block", hide := false, opacity := lit "1",
              transform := lit "translateY(0)" }
  else
    { it with opacity := lit "0", transform := lit "translateY(20px)", display := lit "none",
              hide := true }

/-- A visible item of the category `cards`. -/
def cardsItem : Item :=
  { category := some (lit "cards"), display := lit "block", opacity := lit "1",
    transform := lit "translateY(0)", hide := false }

/-- A page with one visible item and no pending timer, at time 0. -/
def onePage : Portfolio := { now := 0, items := [cardsItem], timers := [] }

/-- The filter `banners` is chosen at time 0 and the filter `all` at time 50. -/
def quickSwitch : Portfolio :=
  runTimers (filterPortfolioItems (some (lit "all"))
    (advanceTo 50 (filterPortfolioItems (some (lit "banners")) onePage)))

/-! ## Lightbox

The listeners `setupLightbox` registers, for a document in which `#lightbox`,
`#lightbox-img`, `#lightbox-title` and `.lightbox-close` exist. -/

/-- A `.gallery-img` element: its `src` and `alt`, and what the click
listener finds around it. The field `item` is `none` when
`this.closest('.portfolio-item')` is `null`, `some none` when the item has
no `.portfolio-title`, and otherwise holds the `textContent` of that title. -/
structure GalleryImage where
  src : JSString
  alt : JSString
  item : Option (Option JSString)
  deriving DecidableEq

/-- The text of the `.portfolio-title` of the closest `.portfolio-item`, when
both exist. -/
def GalleryImage.title (img : GalleryImage) : Option JSString := img.item.join

/-- What the lightbox listeners read and write. -/
structure Lightbox where
  /-- Whether `#lightbox` has the class `active`. -/
  active : Bool
  /-- The style `document.body.style.overflow`. -/
  bodyOverflow : JSString
  /-- The `src` of `#lightbox-img`. -/
  imgSrc : JSString
  /-- The `alt` of `#lightbox-img`. -/
  imgAlt : JSString
  /-- The `textContent` of `#lightbox-title`. -/
  titleText : JSString
  deriving DecidableEq

/-- The elements of the document a click can reach. -/
inductive Node where
  /-- The gallery image with the given index in `galleryImages`. -/
  | galleryImg (i : Nat)
  /-- The element `.lightbox-close`. -/
  | lightboxClose
  /-- The element `#lightbox` itself (the backdrop). -/
  | lightbox
  /-- Any other element. -/
  | other (n : Nat)
  deriving DecidableEq

/-- A click: its target and the ancestors of the target, innermost first,
through which the event bubbles. -/
structure Click where
  target : Node
  ancestors : List Node

/-- The function `closeLightbox()`. -/
def closeLightbox (s : Lightbox) : Lightbox :=
  { s with active := false, bodyOverflow := lit "auto" }

/-- The click listener of a gallery image. Without a portfolio item,
`portfolioItem.querySelector` throws before anything is written; without a
title, `src` and `alt` of the lightbox image are assigned before
`title.textContent` throws. -/
def onImageClick (img : GalleryImage) (s : Lightbox) : Lightbox :=
  match img.item with
  | none => s
  | some none => { s with imgSrc := img.src, imgAlt := img.alt }
  | some (some title) =>
    { s with imgSrc := img.src, imgAlt := img.alt, titleText := title, active := true,
             bodyOverflow := lit "hidden" }

/-- The click listeners registered on a node, run for a click with the given target. -/
def clickListeners (images : List GalleryImage) (target : Node) (s : Lightbox) :
    Node → Lightbox
  | .galleryImg i =>
    match images[i]? with
    | some img => onImageClick img s
    | none => s
  | .lightboxClose => closeLightbox s
  | .lightbox => if target = .lightbox then closeLightbox s else s
  | .other _ => s

/-- Dispatch of a click: the listeners of the target, then those of its
ancestors. -/
def dispatchClick (images : List GalleryImage) (e : Click) (s : Lightbox) : Lightbox :=
  (e.target :: e.ancestors).foldl (clickListeners images e.target) s

/-- The `keydown` listener on the document. -/
def onKeydown (key : JSString) (s : Lightbox) : Lightbox :=
  if key = lit "Escape" && s.active then closeLightbox s else s

/-- An ancestor without click listener of its own that could open or close
the lightbox for a target other than the backdrop: the backdrop or an
ordinary element. -/
def Node.plain : Node → Bool
  | .lightbox => true
  | .other _ => true
  | _ => false

/-- A gallery with one image. -/
def sampleGallery : List GalleryImage :=
  [{ src := lit "img/cards.jpg", alt := lit "Cards",
     item := some (some (lit "Business cards")) }]

/-- A closed lightbox. -/
def closedLightbox : Lightbox :=
  { active := false, bodyOverflow := lit "auto", imgSrc := [], imgAlt := [], titleText := [] }

/-- An open lightbox. -/
def openLightbox : Lightbox :=
  { active := true, bodyOverflow := lit "hidden", imgSrc := lit "img/cards.jpg",
    imgAlt := lit "Cards", titleText := lit "Business cards" }

/-! ## `throttle`

The function returned by `throttle(func, limit)`, its release timers and the
clock. The callback `func` works on the rest of the page (`σ`) and is called
with a `this` (`θ`) and arguments (`α`); it may return, throw, or call the
throttled function again. A timer never fires before it is due, but when it
fires after that is up to the event loop, so the passing of time and the
firing of the release timer are events of their own. -/

/-- What one run of `func` does, besides changing the page. -/
inductive FuncStep (θ α σ : Type) where
  /-- It returns normally, leaving the page in state `w`. -/
  | returns (w : σ)
  /-- It throws, leaving the page in state `w`. -/
  | throws (w : σ)
  /-- It brings the page to state `w`, calls the throttled function with
  `context` and `args` as its last statement, and returns when that call
  returns. -/
  | reenters (w : σ) (context : θ) (args : α)

/-- What happened at the wrapper, in order. -/
inductive ThrottleObs (θ α : Type) where
  /-- A call that ran `func.apply(context, args)`. -/
  | invoked (context : θ) (args : α)
  /-- A call that did nothing. -/
  | dropped (context : θ) (args : α)
  /-- The release timer fired: `inThrottle = false`. -/
  | released
  deriving DecidableEq

/-- The closure of `throttle` and the page around it. -/
structure Throttle (θ α σ : Type) where
  /-- The variable `inThrottle` (`undefined` is `false`). -/
  inThrottle : Bool
  /-- The due times of the release timers that are scheduled and have not
  fired, oldest first. -/
  timers : List Nat
  /-- The clock, in milliseconds. -/
  now : Nat
  /-- The state `func` works on. -/
  world : σ
  /-- The record of calls and timer expiries. -/
  log : List (ThrottleObs θ α)
  /-- The times at which `func` was invoked. -/
  invokedAt : List Nat

/-- The closure right after `throttle(func, limit)`. -/
def Throttle.init {θ α σ : Type} (w : σ) : Throttle θ α σ :=
  { inThrottle := false, timers := [], now := 0, world := w, log := [], invokedAt := [] }

/-- The statements after `func.apply`:
`inThrottle = true; setTimeout(() => inThrottle = false, limit)`. -/
def arm {θ α σ : Type} (limit : Nat) (s : Throttle θ α σ) : Throttle θ α σ :=
  { s with inThrottle := true, timers := s.timers ++ [s.now + limit] }

/-- The body of the function `throttle(func, limit)` returned: the closure
after the call and whether the call returned normally. A call of the wrapper
from inside `func` goes through `nested`. An exception leaves the body
before `inThrottle` and the timer are set. -/
def callBody {θ α σ : Type} (func : θ → α → σ → FuncStep θ α σ) (limit : Nat)
    (nested : Throttle θ α σ → θ → α → Throttle θ α σ × Bool)
    (s : Throttle θ α σ) (context : θ) (args : α) : Throttle θ α σ × Bool :=
  if !s.inThrottle then
    -- func.apply(context, args)
    let s1 : Throttle θ α σ :=
      { s with log := s.log ++ [.invoked context args], invokedAt := s.invokedAt ++ [s.now] }
    match func context args s.world with
    | .returns w => (arm limit { s1 with world := w }, true)
    | .throws w => ({ s1 with world := w }, false)
    | .reenters w c a =>
      let r := nested { s1 with world := w } c a
      if r.2 then (arm limit r.1, true) else r
  else ({ s with log := s.log ++ [.dropped context args] }, true)

/-- A call of the wrapper from inside `func`, with room for `stack` further
nested calls on the call stack; without room the call throws a `RangeError`. -/
def nestedCall {θ α σ : Type} (func : θ → α → σ → FuncStep θ α σ) (limit : Nat) :
    Nat → Throttle θ α σ → θ → α → Throttle θ α σ × Bool
  | 0 => fun s _ _ => (s, false)
  | n + 1 => callBody func limit (nestedCall func limit n)

/-- A call of the function `throttle(func, limit)` returned, from the event
loop. -/
def callThrottled {θ α σ : Type} (func : θ → α → σ → FuncStep θ α σ) (limit stack : Nat)
    (s : Throttle θ α σ) (context : θ) (args : α) : Throttle θ α σ × Bool :=
  callBody func limit (nestedCall func limit stack) s context args

/-- The closure after a call of the throttled function. -/
def throttled {θ α σ : Type} (func : θ → α → σ → FuncStep θ α σ) (limit stack : Nat)
    (s : Throttle θ α σ) (context : θ) (args : α) : Throttle θ α σ :=
  (callThrottled func limit stack s context args).1

/-- The oldest release timer fires, if it is due: `inThrottle = false`. -/
def release {θ α σ : Type} (s : Throttle θ α σ) : Throttle θ α σ :=
  match s.timers with
  | [] => s
  | due :: q =>
    if due ≤ s.now then { s with inThrottle := false, timers := q, log := s.log ++ [.released] }
    else s

/-- An event at the wrapper: a call, the expiry of a release timer, or the
passing of some milliseconds. -/
inductive ThrottleEvent (θ α : Type) where
  | call (context : θ) (args : α)
  | timer
  | advance (ms : Nat)

/-- One event. -/
def throttleStep {θ α σ : Type} (func : θ → α → σ → FuncStep θ α σ) (limit stack : Nat)
    (s : Throttle θ α σ) : ThrottleEvent θ α → Throttle θ α σ
  | .call context args => throttled func limit stack s context args
  | .timer => release s
  | .advance ms => { s with now := s.now + ms }

/-- The closure after a sequence of events. -/
def throttleRun {θ α σ : Type} (func : θ → α → σ → FuncStep θ α σ) (limit stack : Nat)
    (w : σ) (es : List (ThrottleEvent θ α)) : Throttle θ α σ :=
  es.foldl (throttleStep func limit stack) (Throttle.init w)

/-- Reading the record backwards from the latest entry: is the wrapper
free, that is, has the release timer fired since the last invocation, or
was there no invocation yet. -/
def freeAfter {θ α : Type} : List (ThrottleObs θ α) → Bool
  | [] => true
  | .released :: _ => true
  | .invoked _ _ :: _ => false
  | .dropped _ _ :: l => freeAfter l

/-- No earlier call invoked `func` since the last expiry of the release timer. -/
def windowOpen {θ α : Type} (log : List (ThrottleObs θ α)) : Bool := freeAfter log.reverse

/-- The page after one run of `func`. -/
def FuncStep.world {θ α σ : Type} : FuncStep θ α σ → σ
  | .returns w => w
  | .throws w => w
  | .reenters w _ _ => w

/-- The state of the page after the invocations of a record, in order. -/
def replay {θ α σ : Type} (func : θ → α → σ → FuncStep θ α σ) (w : σ) :
    List (ThrottleObs θ α) → σ
  | [] => w
  | .invoked context args :: l => replay func (func context args w).world l
  | _ :: l => replay func w l

/-- Between any two invocations of a record the release timer fired. -/
def Spaced {θ α : Type} (log : List (ThrottleObs θ α)) : Prop :=
  ∀ l1 l2 l3 c1 a1 c2 a2,
    log = l1 ++ .invoked c1 a1 :: (l2 ++ .invoked c2 a2 :: l3) → .released ∈ l2

/-- The callback returns normally and does not call the throttled function. -/
def Plain {θ α σ : Type} (func : θ → α → σ → FuncStep θ α σ) : Prop :=
  ∀ context args w, ∃ w', func context args w = .returns w'

/-- Every release timer that is due has fired. -/
def OnTime {θ α σ : Type} (s : Throttle θ α σ) : Prop :=
  ∀ due ∈ s.timers, s.now < due

/-- What holds of the closure of `throttle` after any sequence of events,
for a callback that returns normally and does not call the wrapper. -/
structure ThrottleInv {θ α σ : Type} (func : θ → α → σ → FuncStep θ α σ) (limit : Nat)
    (w : σ) (s : Throttle θ α σ) : Prop where
  flag : s.inThrottle = !windowOpen s.log
  world : s.world = replay func w s.log
  spaced : Spaced s.log
  armed : s.inThrottle = true →
    ∃ pre t, s.invokedAt = pre ++ [t] ∧ s.timers = [t + limit]
  free : s.inThrottle = false → s.timers = [] ∧ ∀ t ∈ s.invokedAt, t + limit ≤ s.now
  past : ∀ t ∈ s.invokedAt, t ≤ s.now
  apart : s.invokedAt.Pairwise (fun t u => t + limit ≤ u)

/-- A callback that appends its argument to a list. -/
def recordCall (_ : Unit) (a : Nat) (w : List Nat) : FuncStep Unit Nat (List Nat) :=
  .returns (w ++ [a])

/-- A callback that appends its argument to a list and throws. -/
def failingCall (_ : Unit) (a : Nat) (w : List Nat) : FuncStep Unit Nat (List Nat) :=
  .throws (w ++ [a])

/-- A callback that appends its argument to a list and, for a positive
argument, calls the throttled function again with the argument less one. -/
def countdownCall (_ : Unit) (a : Nat) (w : List Nat) : FuncStep Unit Nat (List Nat) :=
  if a = 0 then .returns (w ++ [a]) else .reenters (w ++ [a]) () (a - 1)

/-! ## `debounce`

The function returned by `debounce(func, wait)` and its timers. The callback
`func` is a state transformer of the rest of the page and the firing of a
timer is an event of its own. -/

/-- A timer set by the debounced function: the id `setTimeout` returned, the
delay, and the arguments its callback `later` captured. -/
structure DebounceTimer (α : Type) where
  id : Nat
  delay : Nat
  args : α
  deriving DecidableEq

/-- The closure of `debounce` and the page around it. -/
structure Debounce (α σ : Type) where
  /-- The variable `timeout`: the id of the last timer set, `none` for `undefined`. -/
  timeout : Option Nat
  /-- The timers that are scheduled and were neither fired nor cleared. -/
  pending : List (DebounceTimer α)
  /-- The id the next `setTimeout` returns. -/
  nextId : Nat
  /-- The state `func` works on. -/
  world : σ
  /-- The arguments of the invocations of `func`, in order. -/
  log : List α

/-- The closure right after `debounce(func, wait)`. -/
def Debounce.init {α σ : Type} (w : σ) : Debounce α σ :=
  { timeout := none, pending := [], nextId := 1, world := w, log := [] }

/-- The call `clearTimeout(timeout)`. -/
def clearTimeout {α : Type} (pending : List (DebounceTimer α)) :
    Option Nat → List (DebounceTimer α)
  | none => pending
  | some i => pending.filter (fun t => t.id != i)

/-- A call of the function `debounce(func, wait)` returned:
`clearTimeout(timeout); timeout = setTimeout(later, wait)`. -/
def debounced {α σ : Type} (wait : Nat) (s : Debounce α σ) (args : α) : Debounce α σ :=
  { s with pending := clearTimeout s.pending s.timeout ++ [⟨s.nextId, wait, args⟩],
           timeout := some s.nextId, nextId := s.nextId + 1 }

/-- The callback `later`: `clearTimeout(timeout); func(...args)`. -/
def later {α σ : Type} (func : α → σ → σ) (s : Debounce α σ) (args : α) : Debounce α σ :=
  { s with pending := clearTimeout s.pending s.timeout, world := func args s.world,
           log := s.log ++ [args] }

/-- The timer with the given id fires, if it is pending. -/
def fireTimer {α σ : Type} (func : α → σ → σ) (s : Debounce α σ) (id : Nat) : Debounce α σ :=
  match s.pending.find? (fun t => t.id == id) with
  | none => s
  | some t => later func { s with pending := s.pending.filter (fun u => u.id != id) } t.args

/-- An event at the wrapper: a call or the expiry of the timer with an id. -/
inductive DebounceEvent (α : Type) where
  | call (args : α)
  | timer (id : Nat)

/-- One event. -/
def debounceStep {α σ : Type} (func : α → σ → σ) (wait : Nat) (s : Debounce α σ) :
    DebounceEvent α → Debounce α σ
  | .call args => debounced wait s args
  | .timer id => fireTimer func s id

/-- The closure after a sequence of events. -/
def debounceRun {α σ : Type} (func : α → σ → σ) (wait : Nat) (w : σ)
    (es : List (DebounceEvent α)) : Debounce α σ :=
  es.foldl (debounceStep func wait) (Debounce.init w)

/-- A burst of calls, none of them separated by a timer expiry. -/
def burst {α σ : Type} (wait : Nat) (s : Debounce α σ) (calls : List α) : Debounce α σ :=
  calls.foldl (debounced wait) s

/-- At most one timer is pending, and it is the one `timeout` names. -/
def DebounceInv {α σ : Type} (s : Debounce α σ) : Prop :=
  s.pending = [] ∨ ∃ t, s.pending = [t] ∧ s.timeout = some t.id

/-- A callback that appends its argument to a list. -/
def recordArg (a : Nat) (w : List Nat) : List Nat := w ++ [a]

/-! ## Scroll listeners -/

/-- The functions that are passed to `addEventListener('scroll', …)` or
`removeEventListener('scroll', …)` on `window`. -/
inductive Callback where
  /-- The function `setupScrollEffects` itself. -/
  | setupScrollEffects
  /-- The anonymous listener that `setupScrollEffects` registers. -/
  | scrollEffects
  /-- The arrow function `animateOnScroll` of `setupScrollAnimations`. -/
  | animateOnScroll
  /-- The throttled `optimizedScrollHandler`. -/
  | optimizedScrollHandler
  deriving DecidableEq

/-- What the scroll listeners read and write. -/
structure ScrollWorld where
  /-- The property `window.scrollY`. -/
  scrollY : Nat
  /-- Whether `#header` has the class `scroll-header`, `none` when there is no header. -/
  header : Option Bool
  /-- How often `highlightActiveNavigation()` was called. -/
  highlightCalls : Nat
  deriving DecidableEq

/-- The scroll listeners of `window`, in registration order, and the closure
of `optimizedScrollHandler` around the page. -/
structure ScrollPage where
  listeners : List Callback
  handler : Throttle Unit Unit ScrollWorld

/-- The call `window.addEventListener('scroll', cb)`: a callback that is
already registered is not registered again. -/
def addEventListener (l : List Callback) (cb : Callback) : List Callback :=
  if cb ∈ l then l else l ++ [cb]

/-- The call `window.removeEventListener('scroll', cb)`. -/
def removeEventListener (l : List Callback) (cb : Callback) : List Callback :=
  l.erase cb

/-- The header update followed by `highlightActiveNavigation()`: the body of
the listener of `setupScrollEffects` and of the function given to `throttle`. -/
def headerAndHighlight (w : ScrollWorld) : ScrollWorld :=
  { w with header := w.header.map (fun _ => decide (50 ≤ w.scrollY)),
           highlightCalls := w.highlightCalls + 1 }

/-- The top-level statements
`window.removeEventListener('scroll', setupScrollEffects)` and
`window.addEventListener('scroll', optimizedScrollHandler)`. -/
def scriptLoad (p : ScrollPage) : ScrollPage :=
  let removed := removeEventListener p.listeners .setupScrollEffects
  { p with listeners := addEventListener removed .optimizedScrollHandler }

/-- The function `setupScrollEffects()`. -/
def setupScrollEffects (p : ScrollPage) : ScrollPage :=
  { p with listeners := addEventListener p.listeners .scrollEffects }

/-- The scroll listener registered by `setupScrollAnimations()`. -/
def setupScrollAnimations (p : ScrollPage) : ScrollPage :=
  { p with listeners := addEventListener p.listeners .animateOnScroll }

/-- The function `initializeApp()`, as far as the scroll listeners of
`window` go: the other setup functions register none. -/
def initializeApp (p : ScrollPage) : ScrollPage :=
  setupScrollAnimations (setupScrollEffects p)

/-- Run one scroll listener. -/
def runListener (p : ScrollPage) : Callback → ScrollPage
  | .setupScrollEffects => setupScrollEffects p
  | .scrollEffects =>
    { p with handler := { p.handler with world := headerAndHighlight p.handler.world } }
  | .animateOnScroll => p
  | .optimizedScrollHandler =>
    { p with handler :=
        throttled (fun _ _ w => .returns (headerAndHighlight w)) 100 0 p.handler () () }

/-- A scroll event at the position `y`: every registered listener runs. -/
def scroll (y : Nat) (p : ScrollPage) : ScrollPage :=
  p.listeners.foldl runListener
    { p with handler := { p.handler with world := { p.handler.world with scrollY := y } } }

/-- The page before the script runs. -/
def freshPage : ScrollPage :=
  { listeners := [], handler := Throttle.init ⟨0, some false, 0⟩ }

/-- The page after the script was loaded and `DOMContentLoaded` ran
`initializeApp`. -/
def loadedPage : ScrollPage := initializeApp (scriptLoad freshPage)

/-! ## Smooth-scrolling polyfill

The replacement of `window.scrollTo` installed when
`'scrollBehavior' in document.documentElement.style` is false, and the
animation frames it requests. Positions and times are JavaScript numbers
(doubles); they are modelled as rationals, so `framePosition` and
`easeInOutQuad` give the exact value of the source expression and the
rounding of double arithmetic is not modelled: the double the code computes
can differ from it in the last bits. -/

/-- The arguments of a call of `window.scrollTo`. -/
inductive ScrollToArgs where
  /-- The call `scrollTo({ top, behavior: 'smooth' })`: `typeof options` is `'object'`. -/
  | options (top : ℚ)
  /-- The call `scrollTo(x, y)`: `typeof options` is `'number'`. -/
  | position (x y : ℚ)

/-- The closure `animation` of one call of the polyfill: the variables
`start`, `distance` and `startTime` (`none` for `null`). -/
structure Animation where
  start : ℚ
  distance : ℚ
  startTime : Option ℚ

/-- The window, as far as scrolling goes. -/
structure ScrollWindow where
  /-- Whether `'scrollBehavior' in document.documentElement.style`. -/
  nativeSmooth : Bool
  /-- The property `window.pageYOffset`, the scroll position. -/
  pageYOffset : ℚ
  /-- The callbacks given to `requestAnimationFrame` that have not run yet. -/
  frames : List Animation

/-- The function `easeInOutQuad(t)`. -/
def easeInOutQuad (t : ℚ) : ℚ :=
  if t < 1 / 2 then 2 * t * t else -1 + (4 - 2 * t) * t

/-- The browser's own `window.scrollTo`: the page moves to the position. -/
def nativeScrollTo : ScrollToArgs → ScrollWindow → ScrollWindow
  | .options top, w => { w with pageYOffset := top }
  | .position _ y, w => { w with pageYOffset := y }

/-- The function the script assigns to `window.scrollTo`: for an object it
requests a frame for a new `animation`, for anything else it does nothing. -/
def polyfillScrollTo : ScrollToArgs → ScrollWindow → ScrollWindow
  | .options top, w =>
    { w with frames := w.frames ++ [⟨w.pageYOffset, top - w.pageYOffset, none⟩] }
  | .position _ _, w => w

/-- The property `window.scrollTo` once the script has run: the polyfill
where there is no native support, the browser's function otherwise. -/
def scrollTo (args : ScrollToArgs) (w : ScrollWindow) : ScrollWindow :=
  if w.nativeSmooth then nativeScrollTo args w else polyfillScrollTo args w

/-- The time elapsed in a frame at `currentTime`. -/
def timeElapsed (a : Animation) (currentTime : ℚ) : ℚ :=
  currentTime - a.startTime.getD currentTime

/-- The position a frame passes to `window.scrollTo`:
`start + distance * easeInOutQuad(Math.min(timeElapsed / duration, 1))`. -/
def framePosition (a : Animation) (currentTime : ℚ) : ℚ :=
  a.start + a.distance * easeInOutQuad (min (timeElapsed a currentTime / 500) 1)

/-- The function `animation(currentTime)`. -/
def animation (a : Animation) (currentTime : ℚ) (w : ScrollWindow) : ScrollWindow :=
  -- if (startTime === null) startTime = currentTime
  let startTime := a.startTime.getD currentTime
  let w := scrollTo (.position 0 (framePosition a currentTime)) w
  if timeElapsed a currentTime < 500 then
    { w with frames := w.frames ++ [{ a with startTime := some startTime }] }
  else w

/-- An animation frame at `currentTime`: the requested callbacks run. -/
def animationFrame (w : ScrollWindow) (currentTime : ℚ) : ScrollWindow :=
  w.frames.foldl (fun w a => animation a currentTime w) { w with frames := [] }

/-- A window without native smooth scrolling, at the top of the page. -/
def oldBrowser : ScrollWindow := { nativeSmooth := false, pageYOffset := 0, frames := [] }

/-- The call `window.scrollTo({ top: 1000, behavior: 'smooth' })` in the old
browser, followed by animation frames at 0, 250 and 500 ms. -/
def smoothScrollRun : ScrollWindow :=
  [0, 250, 500].foldl animationFrame (scrollTo (.options 1000) oldBrowser)

/-! ## Theorems: regular expressions -/

theorem matchRep_iff (cls : Nat → Bool) (min : Nat) (max : Option Nat) (k : JSString → Bool) :
    ∀ (s : JSString) (n : Nat), matchRep cls min max k n s = true ↔
      ∃ pre suf, s = pre ++ suf ∧ (∀ c ∈ pre, cls c = true) ∧ min ≤ n + pre.length ∧
        (∀ m, max = some m → pre ≠ [] → n + pre.length ≤ m) ∧ k suf = true := by
  intro s
  induction s with
  | nil =>
    intro n
    simp only [matchRep, Bool.and_eq_true, decide_eq_true_eq]
    constructor
    · rintro ⟨h1, h2⟩
      exact ⟨[], [], rfl, by simp, by simpa using h1, by simp, h2⟩
    · rintro ⟨pre, suf, h, -, h2, -, h4⟩
      have hp : pre = [] := by
        cases pre with
        | nil => rfl
        | cons a l => simp at h
      have hs : suf = [] := by
        subst hp; simpa using h.symm
      subst hp; subst hs
      exact ⟨by simpa using h2, h4⟩
  | cons c t ih =>
    intro n
    simp only [matchRep, Bool.or_eq_true, Bool.and_eq_true, decide_eq_true_eq, ih]
    constructor
    · rintro (⟨⟨hm, hc⟩, pre, suf, rfl, h1, h2, h3, h4⟩ | ⟨h1, h2⟩)
      · refine ⟨c :: pre, suf, rfl, ?_, ?_, ?_, h4⟩
        · intro x hx
          rcases List.mem_cons.mp hx with rfl | hx
          · exact hc
          · exact h1 x hx
        · simp only [List.length_cons]; omega
        · intro m hmax _
          subst hmax
          simp only [underMax, decide_eq_true_eq] at hm
          by_cases hp : pre = []
          · subst hp; simp only [List.length_cons, List.length_nil]; omega
          · have := h3 m rfl hp
            simp only [List.length_cons]; omega
      · exact ⟨[], c :: t, rfl, by simp, by simpa using h1, by simp, h2⟩
    · rintro ⟨pre, suf, h, h1, h2, h3, h4⟩
      cases pre with
      | nil =>
        right
        simp only [List.nil_append] at h
        subst h
        exact ⟨by simpa using h2, h4⟩
      | cons a pre =>
        left
        simp only [List.cons_append, List.cons.injEq] at h
        obtain ⟨rfl, rfl⟩ := h
        refine ⟨⟨?_, h1 c (List.mem_cons_self _ _)⟩, pre, suf, rfl, ?_, ?_, ?_, h4⟩
        · cases max with
          | none => rfl
          | some m =>
            have := h3 m rfl (by simp)
            simp only [List.length_cons] at this
            simp only [underMax, decide_eq_true_eq]; omega
        · intro x hx; exact h1 x (List.mem_cons_of_mem _ hx)
        · simp only [List.length_cons] at h2; omega
        · intro m hmax _
          have := h3 m hmax (by simp)
          simp only [List.length_cons] at this; omega

theorem matchRep_plus_iff (cls : Nat → Bool) (k : JSString → Bool) (s : JSString) :
    matchRep cls 1 none k 0 s = true ↔
      ∃ pre suf, s = pre ++ suf ∧ pre ≠ [] ∧ (∀ c ∈ pre, cls c = true) ∧ k suf = true := by
  rw [matchRep_iff]
  constructor
  · rintro ⟨pre, suf, h, h1, h2, -, h4⟩
    refine ⟨pre, suf, h, ?_, h1, h4⟩
    rintro rfl
    simp at h2
  · rintro ⟨pre, suf, h, h0, h1, h4⟩
    refine ⟨pre, suf, h, h1, ?_, by simp, h4⟩
    have := List.length_pos.mpr h0
    omega

theorem matchRep_one_iff (a : Nat) (k : JSString → Bool) (s : JSString) :
    matchRep (isChar a) 1 (some 1) k 0 s = true ↔ ∃ suf, s = a :: suf ∧ k suf = true := by
  rw [matchRep_iff]
  constructor
  · rintro ⟨pre, suf, h, h1, h2, h3, h4⟩
    match pre, h, h1, h2, h3 with
    | [], _, _, h2, _ => simp at h2
    | [x], h, h1, _, _ =>
      have hx : x = a := by simpa [isChar] using h1 x (by simp)
      subst hx
      exact ⟨suf, by simpa using h, h4⟩
    | x :: y :: l, _, _, _, h3 =>
      have := h3 1 rfl (by simp)
      simp at this
  · rintro ⟨suf, rfl, h4⟩
    exact ⟨[a], suf, rfl, by simp [isChar], by simp, by simp, h4⟩

theorem matchRep_opt_iff (a : Nat) (k : JSString → Bool) (s : JSString) :
    matchRep (isChar a) 0 (some 1) k 0 s = true ↔
      k s = true ∨ ∃ suf, s = a :: suf ∧ k suf = true := by
  rw [matchRep_iff]
  constructor
  · rintro ⟨pre, suf, h, h1, -, h3, h4⟩
    match pre, h, h1, h3 with
    | [], h, _, _ =>
      left
      simp only [List.nil_append] at h
      rw [h]; exact h4
    | [x], h, h1, _ =>
      have hx : x = a := by simpa [isChar] using h1 x (by simp)
      subst hx
      exact Or.inr ⟨suf, by simpa using h, h4⟩
    | x :: y :: l, _, _, h3 =>
      have := h3 1 rfl (by simp)
      simp at this
  · rintro (h4 | ⟨suf, rfl, h4⟩)
    · exact ⟨[], s, rfl, by simp, by simp, by simp, h4⟩
    · exact ⟨[a], suf, rfl, by simp [isChar], by simp, by simp, h4⟩

theorem matchRep_atLeast_end_iff (cls : Nat → Bool) (n : Nat) (s : JSString) :
    matchRep cls n none (fun s => s.isEmpty) 0 s = true ↔
      n ≤ s.length ∧ ∀ c ∈ s, cls c = true := by
  rw [matchRep_iff]
  constructor
  · rintro ⟨pre, suf, h, h1, h2, -, h4⟩
    have hs : suf = [] := by simpa using h4
    subst hs
    simp only [List.append_nil] at h
    subst h
    exact ⟨by omega, h1⟩
  · rintro ⟨h1, h2⟩
    exact ⟨s, [], by simp, h2, by omega, by simp, by simp⟩

/-- The strings `emailRegex` accepts: `a@b.c` with `a`, `b`, `c` non-empty
and free of white space and `@`. -/
theorem test_emailRegex_iff (v : JSString) :
    test emailRegex v = true ↔
      ∃ a b c, v = a ++ 64 :: (b ++ 46 :: c) ∧ a ≠ [] ∧ b ≠ [] ∧ c ≠ [] ∧
        (∀ x ∈ a, notSpaceAt x = true) ∧ (∀ x ∈ b, notSpaceAt x = true) ∧
        (∀ x ∈ c, notSpaceAt x = true) := by
  simp only [test, emailRegex, matchPieces, plus, one, matchRep_plus_iff, matchRep_one_iff]
  constructor
  · rintro ⟨a, s1, rfl, ha, ha', s2, rfl, b, s3, rfl, hb, hb', s4, rfl, c, s5, rfl, hc, hc', h5⟩
    have : s5 = [] := by simpa using h5
    subst this
    exact ⟨a, b, c, by simp, ha, hb, hc, ha', hb', hc'⟩
  · rintro ⟨a, b, c, rfl, ha, hb, hc, ha', hb', hc'⟩
    exact ⟨a, _, rfl, ha, ha', _, rfl, b, _, rfl, hb, hb', _, rfl, c, [], by simp, hc, hc',
      by simp⟩

/-- The strings `phoneRegex` accepts. -/
theorem test_phoneRegex_iff (v : JSString) :
    test phoneRegex v = true ↔
      (8 ≤ v.length ∧ ∀ c ∈ v, phoneClass c = true) ∨
        ∃ body, v = 43 :: body ∧ 8 ≤ body.length ∧ ∀ c ∈ body, phoneClass c = true := by
  simp only [test, phoneRegex, matchPieces, opt, atLeast, matchRep_opt_iff,
    matchRep_atLeast_end_iff]

/-! ## Theorems: the accepted values in the words of the specification -/

theorem takeWhile_dropWhile_split (p : Nat → Bool) (v : JSString) :
    ((∀ x ∈ v, p x = true) ∧ v.takeWhile p = v ∧ v.dropWhile p = []) ∨
      ∃ a y t, v = a ++ y :: t ∧ (∀ x ∈ a, p x = true) ∧ p y = false ∧
        v.takeWhile p = a ∧ v.dropWhile p = y :: t := by
  induction v with
  | nil => left; simp
  | cons x l ih =>
    by_cases hx : p x = true
    · rcases ih with ⟨h1, h2, h3⟩ | ⟨a, y, t, h, h1, h2, h3, h4⟩
      · left
        refine ⟨?_, ?_, ?_⟩
        · intro z hz
          rcases List.mem_cons.mp hz with rfl | hz
          · exact hx
          · exact h1 z hz
        · simp [List.takeWhile_cons, hx, h2]
        · simp [List.dropWhile_cons, hx, h3]
      · right
        refine ⟨x :: a, y, t, by simp [h], ?_, h2, ?_, ?_⟩
        · intro z hz
          rcases List.mem_cons.mp hz with rfl | hz
          · exact hx
          · exact h1 z hz
        · simp [List.takeWhile_cons, hx, h3]
        · simp [List.dropWhile_cons, hx, h4]
    · right
      have hx' : p x = false := by simpa using hx
      exact ⟨[], x, l, rfl, by simp, hx', by simp [List.takeWhile_cons, hx'],
        by simp [List.dropWhile_cons, hx']⟩

theorem split_of_prefix (p : Nat → Bool) (a : JSString) (y : Nat) (t : JSString)
    (ha : ∀ x ∈ a, p x = true) (hy : p y = false) :
    (a ++ y :: t).takeWhile p = a ∧ (a ++ y :: t).dropWhile p = y :: t := by
  induction a with
  | nil => simp [List.takeWhile_cons, List.dropWhile_cons, hy]
  | cons x l ih =>
    have hx : p x = true := ha x (List.mem_cons_self _ _)
    have := ih (fun z hz => ha z (List.mem_cons_of_mem _ hz))
    simp [List.takeWhile_cons, List.dropWhile_cons, hx, this.1, this.2]

theorem notSpaceAt_iff (x : Nat) :
    notSpaceAt x = true ↔ isWhiteSpace x = false ∧ x ≠ 64 := by
  simp [notSpaceAt]

/-- The regular expression for e-mail addresses accepts exactly the values
the specification describes. -/
theorem test_emailRegex_iff_spec (v : JSString) :
    test emailRegex v = true ↔ EmailSpec v := by
  rw [test_emailRegex_iff]
  constructor
  · rintro ⟨a, b, c, rfl, ha, hb, hc, ha', hb', hc'⟩
    have hpa : ∀ x ∈ a, (fun c => c != 64) x = true := by
      intro x hx
      have := (notSpaceAt_iff x).mp (ha' x hx)
      simpa using this.2
    obtain ⟨ht, hd⟩ := split_of_prefix (fun c => c != 64) a 64 (b ++ 46 :: c) hpa (by simp)
    refine ⟨?_, ?_, ?_, b.length, ?_, ?_, ?_⟩
    · intro x hx
      simp only [List.mem_append, List.mem_cons] at hx
      rcases hx with hx | rfl | hx | rfl | hx
      · exact ((notSpaceAt_iff x).mp (ha' x hx)).1
      · decide
      · exact ((notSpaceAt_iff x).mp (hb' x hx)).1
      · decide
      · exact ((notSpaceAt_iff x).mp (hc' x hx)).1
    · have h0 : ∀ l : JSString, (∀ x ∈ l, notSpaceAt x = true) → l.count 64 = 0 := by
        intro l hl
        rw [List.count_eq_zero]
        intro h
        have := (notSpaceAt_iff 64).mp (hl 64 h)
        exact this.2 rfl
      simp [List.count_append, List.count_cons, h0 a ha', h0 b hb', h0 c hc']
    · rw [beforeAt, ht]; exact ha
    · exact List.length_pos.mpr hb
    · rw [afterAt, hd]
      have := List.length_pos.mpr hc
      simp only [List.drop_succ_cons, List.drop_zero, List.length_append, List.length_cons]
      omega
    · rw [afterAt, hd]
      simp only [List.drop_succ_cons, List.drop_zero]
      rw [List.getElem?_append_right (le_refl _)]
      simp
  · rintro ⟨hws, hcount, hbefore, i, hi0, hi1, hi⟩
    rcases takeWhile_dropWhile_split (fun c => c != 64) v with
      ⟨h1, -, -⟩ | ⟨a, y, t, hv, ha, hy, ht, hd⟩
    · exfalso
      have : v.count 64 = 0 := by
        rw [List.count_eq_zero]
        intro h
        simpa using h1 64 h
      omega
    · have hy' : y = 64 := by simpa using hy
      subst hy'
      rw [beforeAt, ht] at hbefore
      rw [afterAt, hd] at hi hi1
      simp only [List.drop_succ_cons, List.drop_zero] at hi hi1
      have hilt : i < t.length := by omega
      have hti : t[i] = 46 := by
        rw [List.getElem?_eq_getElem hilt] at hi
        simpa using hi
      have hsplit : t = t.take i ++ 46 :: t.drop (i + 1) := by
        rw [← hti, ← List.drop_eq_getElem_cons hilt, List.take_append_drop]
      have hca : a.count 64 = 0 := by
        rw [List.count_eq_zero]
        intro h
        simpa using ha 64 h
      have hct : t.count 64 = 0 := by
        rw [hv] at hcount
        simp [List.count_append, List.count_cons, hca] at hcount
        exact hcount
      have hmem : ∀ x ∈ t, notSpaceAt x = true := by
        intro x hx
        rw [notSpaceAt_iff]
        refine ⟨hws x (by rw [hv]; simp [hx]), ?_⟩
        rintro rfl
        exact (List.count_eq_zero.mp hct) hx
      refine ⟨a, t.take i, t.drop (i + 1), ?_, hbefore, ?_, ?_, ?_, ?_, ?_⟩
      · rw [← hsplit]; exact hv
      · intro h
        have := congrArg List.length h
        simp only [List.length_take, List.length_nil] at this
        omega
      · intro h
        have := congrArg List.length h
        simp only [List.length_drop, List.length_nil] at this
        omega
      · intro x hx
        rw [notSpaceAt_iff]
        refine ⟨hws x (by rw [hv]; simp [hx]), ?_⟩
        rintro rfl
        simpa using ha 64 hx
      · intro x hx
        exact hmem x (List.mem_of_mem_take hx)
      · intro x hx
        exact hmem x (List.mem_of_mem_drop hx)

theorem phoneClass_iff (c : Nat) :
    phoneClass c = true ↔
      (isDigit c = true ∨ isWhiteSpace c = true ∨ c = 45 ∨ c = 40 ∨ c = 41) := by
  simp [phoneClass, or_assoc]

/-- The regular expression for phone numbers accepts exactly the values the
specification describes. -/
theorem test_phoneRegex_iff_spec (v : JSString) :
    test phoneRegex v = true ↔ PhoneSpec v := by
  rw [test_phoneRegex_iff]
  simp only [phoneClass_iff, PhoneSpec]
  constructor
  · rintro (⟨h1, h2⟩ | ⟨body, rfl, h1, h2⟩)
    · exact ⟨v, Or.inl rfl, h1, h2⟩
    · exact ⟨body, Or.inr rfl, h1, h2⟩
  · rintro ⟨body, rfl | rfl, h1, h2⟩
    · exact Or.inl ⟨h1, h2⟩
    · exact Or.inr ⟨body, rfl, h1, h2⟩

/-! ## Theorems: `validateField` -/

theorem trim_eq_nil_of_white (s : JSString) (h : ∀ c ∈ s, isWhiteSpace c = true) :
    trim s = [] := by
  have h1 : trimStart s = [] := by
    rw [trimStart, List.dropWhile_eq_nil_iff]; exact h
  simp [trim, h1, trimEnd]

theorem specificValidation_snd (n v : JSString) (h : (specificValidation n v).1 = true) :
    (specificValidation n v).2 = [] := by
  unfold specificValidation at h ⊢
  split_ifs at h ⊢ <;> rfl

theorem checkField_snd (f : Field) (h : (checkField f).1 = true) : (checkField f).2 = [] := by
  unfold checkField at h ⊢
  by_cases h1 : (f.required && (trim f.value).isEmpty) = true
  · simp only [h1, if_true, Bool.false_and] at h ⊢
    simp at h
  · simp only [h1, if_false, Bool.true_and] at h ⊢
    by_cases h2 : (!(trim f.value).isEmpty) = true
    · simp only [h2, if_true] at h ⊢
      exact specificValidation_snd _ _ h
    · simp [h2]

/-- What a call of `validateField` on a field inside a form group does: it
returns the validation decision, sets the `error` class of the group to its
negation and writes the message into the error element, if there is one. -/
theorem validateField_ok (d : FormDoc) (f : Field) (g : Nat) (hg : f.formGroup = some g) :
    ∃ d', validateField d (some f) = .ok (d', (checkField f).1) ∧
      d'.fieldById = d.fieldById ∧
      d'.groupError = setGroupError d.groupError g (!(checkField f).1) ∧
      d'.textContent = setText d.textContent (f.name ++ lit "Error") (checkField f).2 := by
  simp only [validateField, hg]
  refine ⟨_, rfl, ?_, ?_, ?_⟩
  · split_ifs <;> rfl
  · funext i
    split_ifs with h <;> simp only [setGroupError] <;> split_ifs <;> simp_all
  · funext i
    split_ifs with h
    · simp only [setText]
      split_ifs
      · cases d.textContent i <;> rfl
      · rfl
    · have h' : (checkField f).1 = true := by simpa using h
      rw [checkField_snd f h']

theorem checkField_required_empty (f : Field) (hreq : f.required = true)
    (hempty : ∀ c ∈ f.value, isWhiteSpace c = true) :
    checkField f = (false, requiredMessage) := by
  simp [checkField, trim_eq_nil_of_white f.value hempty, hreq]

theorem checkField_nonempty (f : Field) (hv : trim f.value ≠ []) :
    checkField f = specificValidation f.name (trim f.value) := by
  have : (trim f.value).isEmpty = false := by
    cases h : trim f.value with
    | nil => exact absurd h hv
    | cons a l => rfl
  simp [checkField, this]

/-- C1: a required field whose value is empty or only white space is
rejected whatever its name: `validateField` returns `false`, the field's form
group gets the class `error` and the field's error element, when the
document has one, receives the required-field message. -/
theorem validateField_required_blank (d : FormDoc) (f : Field) (g : Nat)
    (hreq : f.required = true) (hblank : ∀ c ∈ f.value, isWhiteSpace c = true)
    (hg : f.formGroup = some g) :
    ∃ d', validateField d (some f) = .ok (d', false) ∧ d'.groupError g = true ∧
      d'.textContent (f.name ++ lit "Error") =
        (d.textContent (f.name ++ lit "Error")).map (fun _ => requiredMessage) := by
  obtain ⟨d', h, -, h2, h3⟩ := validateField_ok d f g hg
  rw [checkField_required_empty f hreq hblank] at h h2 h3
  exact ⟨d', h, by simp [h2, setGroupError], by simp [h3, setText]⟩

theorem validateField_required_blank_witness :
    blankService.required = true ∧ (∀ c ∈ blankService.value, isWhiteSpace c = true) ∧
      blankService.formGroup = some 0 ∧
      ∃ d', validateField serviceDoc (some blankService) = .ok (d', false) ∧
        d'.groupError 0 = true ∧
        d'.textContent (blankService.name ++ lit "Error") =
          (serviceDoc.textContent (blankService.name ++ lit "Error")).map
            (fun _ => requiredMessage) :=
  ⟨rfl, by decide, rfl,
    validateField_required_blank serviceDoc blankService 0 rfl (by decide) rfl⟩

/-- C2: for a field named `email` with a non-empty trimmed value `v`,
`validateField` returns `true` exactly when `v` has no white space, exactly
one `@`, a character before it and, after it, a `.` that is neither first
nor last (equivalently, when the regular expression matches); otherwise the
form group gets the class `error` and the error element the invalid-email
message. -/
theorem validateField_email (d : FormDoc) (f : Field) (g : Nat)
    (hname : f.name = lit "email") (hv : trim f.value ≠ []) (hg : f.formGroup = some g) :
    ∃ d' b, validateField d (some f) = .ok (d', b) ∧
      (b = true ↔ EmailSpec (trim f.value)) ∧
      (b = true ↔ test emailRegex (trim f.value) = true) ∧
      (b = true → d'.groupError g = false) ∧
      (b = false → d'.groupError g = true ∧
        d'.textContent (lit "emailError") =
          (d.textContent (lit "emailError")).map (fun _ => emailMessage)) := by
  obtain ⟨d', h, -, h2, h3⟩ := validateField_ok d f g hg
  have hc : checkField f =
      if !test emailRegex (trim f.value) then (false, emailMessage) else (true, []) := by
    rw [checkField_nonempty f hv, hname]
    simp only [specificValidation]
    rw [if_neg (by decide), if_pos trivial]
  have happ : f.name ++ lit "Error" = lit "emailError" := by rw [hname]; decide
  rw [happ] at h3
  refine ⟨d', (checkField f).1, h, ?_, ?_, ?_, ?_⟩
  · rw [← test_emailRegex_iff_spec, hc]
    cases test emailRegex (trim f.value) <;> simp
  · rw [hc]
    cases test emailRegex (trim f.value) <;> simp
  · intro hb
    simp [h2, setGroupError, hb]
  · intro hb
    refine ⟨by simp [h2, setGroupError, hb], ?_⟩
    rw [h3]
    have : (checkField f).2 = emailMessage := by
      rw [hc] at hb ⊢
      cases htest : test emailRegex (trim f.value) <;> simp [htest] at hb ⊢
    simp [setText, this]

theorem validateField_email_witness :
    (emailField (lit " a@b.c ")).name = lit "email" ∧
      trim (emailField (lit " a@b.c ")).value ≠ [] ∧
      (emailField (lit " a@b.c ")).formGroup = some 1 ∧
      ∃ d' b, validateField emptyDoc (some (emailField (lit " a@b.c "))) = .ok (d', b) ∧
        (b = true ↔ EmailSpec (trim (emailField (lit " a@b.c ")).value)) ∧
        (b = true ↔ test emailRegex (trim (emailField (lit " a@b.c ")).value) = true) ∧
        (b = true → d'.groupError 1 = false) ∧
        (b = false → d'.groupError 1 = true ∧
          d'.textContent (lit "emailError") =
            (emptyDoc.textContent (lit "emailError")).map (fun _ => emailMessage)) :=
  ⟨rfl, by decide, rfl,
    validateField_email emptyDoc (emailField (lit " a@b.c ")) 1 rfl (by decide) rfl⟩

theorem phoneClass_not_letter (c : Nat) (h : isLetter c = true) :
    phoneClass c = false ∧ c ≠ 43 := by
  simp only [isLetter, Bool.or_eq_true, Bool.and_eq_true, decide_eq_true_eq] at h
  have hf : ¬ (phoneClass c = true) := by
    simp only [phoneClass, isDigit, isWhiteSpace, Bool.or_eq_true, Bool.and_eq_true,
      decide_eq_true_eq, beq_iff_eq]
    omega
  exact ⟨by simpa using hf, by omega⟩

theorem phoneSpec_mem (v : JSString) (h : PhoneSpec v) (i : Nat) (c : Nat)
    (hc : v[i]? = some c) : phoneClass c = true ∨ (i = 0 ∧ c = 43) := by
  obtain ⟨body, hb | hb, -, h2⟩ := h
  · subst hb
    left
    rw [phoneClass_iff]
    exact h2 c (List.getElem?_mem hc)
  · subst hb
    cases i with
    | zero => right; simpa using hc.symm
    | succ j =>
      left
      rw [phoneClass_iff]
      exact h2 c (List.getElem?_mem (by simpa using hc))

theorem phoneSpec_afterPlus (v : JSString) (h : PhoneSpec v) : 8 ≤ (afterPlus v).length := by
  obtain ⟨body, hb | hb, h1, h2⟩ := h
  · subst hb
    match v, h1, h2 with
    | [], h1, _ => simp at h1
    | c :: t, h1, h2 =>
      by_cases hc : c = 43
      · subst hc
        have h43 := h2 43 (by simp)
        exact absurd h43 (by decide)
      · have : afterPlus (c :: t) = c :: t := by
          unfold afterPlus
          split
          · rename_i heq
            simp only [List.cons.injEq] at heq
            exact absurd heq.1 hc
          · rfl
        rw [this]; exact h1
  · subst hb
    exact h1

/-- C3: for a field named `phone` with a non-empty trimmed value `v`,
`validateField` returns `true` exactly when `v` is an optional single
leading `+` followed by at least 8 characters that are digits, white space,
`-`, `(` or `)` (equivalently, when the regular expression matches);
otherwise the form group gets the class `error` and the error element the
invalid-phone message. In particular a value with a letter, with a `+` after
the first position, or with fewer than 8 characters after the optional `+`
is rejected. -/
theorem validateField_phone (d : FormDoc) (f : Field) (g : Nat)
    (hname : f.name = lit "phone") (hv : trim f.value ≠ []) (hg : f.formGroup = some g) :
    ∃ d' b, validateField d (some f) = .ok (d', b) ∧
      (b = true ↔ PhoneSpec (trim f.value)) ∧
      (b = true ↔ test phoneRegex (trim f.value) = true) ∧
      (b = true → d'.groupError g = false) ∧
      (b = false → d'.groupError g = true ∧
        d'.textContent (lit "phoneError") =
          (d.textContent (lit "phoneError")).map (fun _ => phoneMessage)) ∧
      ((∃ c ∈ trim f.value, isLetter c = true) → b = false) ∧
      ((∃ i, 0 < i ∧ (trim f.value)[i]? = some 43) → b = false) ∧
      ((afterPlus (trim f.value)).length < 8 → b = false) := by
  obtain ⟨d', h, -, h2, h3⟩ := validateField_ok d f g hg
  have hc : checkField f =
      if !test phoneRegex (trim f.value) then (false, phoneMessage) else (true, []) := by
    rw [checkField_nonempty f hv, hname]
    simp only [specificValidation]
    rw [if_neg (by decide), if_neg (by decide), if_pos trivial]
  have happ : f.name ++ lit "Error" = lit "phoneError" := by rw [hname]; decide
  rw [happ] at h3
  have hspec : (checkField f).1 = true ↔ PhoneSpec (trim f.value) := by
    rw [← test_phoneRegex_iff_spec, hc]
    cases test phoneRegex (trim f.value) <;> simp
  have hfalse : ∀ {b : Bool}, ¬ (b = true) → b = false := by
    intro b hb; simpa using hb
  refine ⟨d', (checkField f).1, h, hspec, ?_, ?_, ?_, ?_, ?_, ?_⟩
  · rw [hc]
    cases test phoneRegex (trim f.value) <;> simp
  · intro hb
    simp [h2, setGroupError, hb]
  · intro hb
    refine ⟨by simp [h2, setGroupError, hb], ?_⟩
    rw [h3]
    have : (checkField f).2 = phoneMessage := by
      rw [hc] at hb ⊢
      cases htest : test phoneRegex (trim f.value) <;> simp [htest] at hb ⊢
    simp [setText, this]
  · rintro ⟨c, hmem, hlet⟩
    apply hfalse
    intro hb
    obtain ⟨i, hi⟩ := List.getElem?_of_mem hmem
    have h1 := phoneClass_not_letter c hlet
    rcases phoneSpec_mem _ (hspec.mp hb) i c hi with hcl | ⟨-, h43⟩
    · rw [h1.1] at hcl; exact absurd hcl (by decide)
    · exact h1.2 h43
  · rintro ⟨i, hi0, hi⟩
    apply hfalse
    intro hb
    rcases phoneSpec_mem _ (hspec.mp hb) i 43 hi with hcl | ⟨h0, -⟩
    · revert hcl; decide
    · omega
  · intro hlen
    apply hfalse
    intro hb
    have := phoneSpec_afterPlus _ (hspec.mp hb)
    omega

theorem validateField_phone_witness :
    (phoneField (lit "+20 (10) 555-1234")).name = lit "phone" ∧
      trim (phoneField (lit "+20 (10) 555-1234")).value ≠ [] ∧
      (phoneField (lit "+20 (10) 555-1234")).formGroup = some 2 ∧
      ∃ d' b, validateField emptyDoc (some (phoneField (lit "+20 (10) 555-1234"))) =
          .ok (d', b) ∧
        (b = true ↔ PhoneSpec (trim (phoneField (lit "+20 (10) 555-1234")).value)) ∧
        (b = true ↔
          test phoneRegex (trim (phoneField (lit "+20 (10) 555-1234")).value) = true) ∧
        (b = true → d'.groupError 2 = false) ∧
        (b = false → d'.groupError 2 = true ∧
          d'.textContent (lit "phoneError") =
            (emptyDoc.textContent (lit "phoneError")).map (fun _ => phoneMessage)) ∧
        ((∃ c ∈ trim (phoneField (lit "+20 (10) 555-1234")).value, isLetter c = true) →
          b = false) ∧
        ((∃ i, 0 < i ∧ (trim (phoneField (lit "+20 (10) 555-1234")).value)[i]? = some 43) →
          b = false) ∧
        ((afterPlus (trim (phoneField (lit "+20 (10) 555-1234")).value)).length < 8 →
          b = false) :=
  ⟨rfl, by decide, rfl,
    validateField_phone emptyDoc (phoneField (lit "+20 (10) 555-1234")) 2 rfl (by decide) rfl⟩

/-! ### Examples of the two regular expressions -/

example : test emailRegex (lit "a@b.c") = true := by decide
example : test emailRegex (lit "a@b..c") = true := by decide
example : test emailRegex (lit "a@b") = false := by decide
example : test emailRegex (lit "a@.c") = false := by decide
example : test emailRegex (lit "a@b.") = false := by decide
example : test emailRegex (lit "a@b@c.d") = false := by decide
example : test emailRegex (lit "a b@c.d") = false := by decide
example : test phoneRegex (lit "+12345678") = true := by decide
example : test phoneRegex (lit "1234567") = false := by decide
example : test phoneRegex (lit "12+345678") = false := by decide
example : test phoneRegex (lit "1234 5678a") = false := by decide

/-! ### Minimum lengths of the name and the message -/

/-- A non-empty name is accepted exactly when it has at least two code units. -/
theorem checkField_name (f : Field) (hname : f.name = lit "name") (hv : trim f.value ≠ []) :
    (checkField f).1 = true ↔ 2 ≤ (trim f.value).length := by
  rw [checkField_nonempty f hv, hname]
  simp only [specificValidation]
  rw [if_pos trivial]
  split_ifs with h <;> simp <;> omega

/-- A non-empty message is accepted exactly when it has at least ten code units. -/
theorem checkField_message (f : Field) (hname : f.name = lit "message")
    (hv : trim f.value ≠ []) :
    (checkField f).1 = true ↔ 10 ≤ (trim f.value).length := by
  rw [checkField_nonempty f hv, hname]
  simp only [specificValidation]
  rw [if_neg (by decide), if_neg (by decide), if_neg (by decide), if_pos trivial]
  split_ifs with h <;> simp <;> omega

/-- C6 (the code at the boundary): a name of exactly two characters and a
message of exactly ten characters are accepted by `validateField`, although
the messages shown on rejection ask for more than two and more than ten
characters. -/
theorem validateField_length_boundary :
    (∃ d', validateField emptyDoc (some (nameField (lit "ab"))) = .ok (d', true)) ∧
      (trim (nameField (lit "ab")).value).length = 2 ∧
      (∃ d', validateField emptyDoc (some (messageField (lit "0123456789"))) =
        .ok (d', true)) ∧
      (trim (messageField (lit "0123456789")).value).length = 10 := by
  refine ⟨?_, by decide, ?_, by decide⟩
  · obtain ⟨d', h, -⟩ := validateField_ok emptyDoc (nameField (lit "ab")) 3 rfl
    have hc : (checkField (nameField (lit "ab"))).1 = true := by decide
    rw [hc] at h
    exact ⟨d', h⟩
  · obtain ⟨d', h, -⟩ := validateField_ok emptyDoc (messageField (lit "0123456789")) 4 rfl
    have hc : (checkField (messageField (lit "0123456789"))).1 = true := by decide
    rw [hc] at h
    exact ⟨d', h⟩

/-! ## Theorems: `validateForm` and `handleFormSubmission` -/

theorem returns_iff (f : Field) (g : Nat) (hg : f.formGroup = some g) (r : Bool) :
    Returns f r ↔ (checkField f).1 = r := by
  constructor
  · intro h
    obtain ⟨d', hd⟩ := h emptyDoc
    obtain ⟨d'', hd', -⟩ := validateField_ok emptyDoc f g hg
    rw [hd] at hd'
    injection hd' with hd'
    exact (congrArg Prod.snd hd').symm
  · rintro rfl d
    obtain ⟨d', hd', -⟩ := validateField_ok d f g hg
    exact ⟨d', hd'⟩

theorem validateForm_ok (d : FormDoc) (fn fe fp fs fm : Field) (gn ge gp gs gm : Nat)
    (hn : d.fieldById (lit "name") = some fn) (he : d.fieldById (lit "email") = some fe)
    (hp : d.fieldById (lit "phone") = some fp) (hs : d.fieldById (lit "service") = some fs)
    (hm : d.fieldById (lit "message") = some fm)
    (hgn : fn.formGroup = some gn) (hge : fe.formGroup = some ge)
    (hgp : fp.formGroup = some gp) (hgs : fs.formGroup = some gs)
    (hgm : fm.formGroup = some gm) :
    ∃ d', validateForm d = .ok (d', (checkField fn).1 && (checkField fe).1 &&
        (checkField fp).1 && (checkField fs).1 && (checkField fm).1) ∧
      d'.groupError = setGroupError (setGroupError (setGroupError (setGroupError
        (setGroupError d.groupError gn (!(checkField fn).1)) ge (!(checkField fe).1))
          gp (!(checkField fp).1)) gs (!(checkField fs).1)) gm (!(checkField fm).1) := by
  obtain ⟨d1, h1, -, g1, -⟩ := validateField_ok d fn gn hgn
  obtain ⟨d2, h2, -, g2, -⟩ := validateField_ok d1 fe ge hge
  obtain ⟨d3, h3, -, g3, -⟩ := validateField_ok d2 fp gp hgp
  obtain ⟨d4, h4, -, g4, -⟩ := validateField_ok d3 fs gs hgs
  obtain ⟨d5, h5, -, g5, -⟩ := validateField_ok d4 fm gm hgm
  refine ⟨d5, ?_, ?_⟩
  · simp only [validateForm, hn, he, hp, hs, hm, h1, h2, h3, h4, h5, bind, Except.bind, pure,
      Except.pure]
    cases (checkField fn).1 <;> cases (checkField fe).1 <;> cases (checkField fp).1 <;>
      cases (checkField fs).1 <;> cases (checkField fm).1 <;> rfl
  · rw [g5, g4, g3, g2, g1]

theorem handleFormSubmission_prevents (d : FormDoc) :
    (handleFormSubmission d).defaultPrevented = true := by
  unfold handleFormSubmission
  split
  · rfl
  · split <;> rfl

/-- C7: with the five form controls present, each inside its own form
group, `validateForm` returns `true` exactly when `validateField` returns
`true` for each of `name`, `email`, `phone`, `service` and `message`; all
five are validated, so afterwards the form group of every rejected field
carries the class `error` and the form group of every accepted field does
not; `handleFormSubmission` calls `submitForm` exactly when `validateForm`
returned `true`, and it always prevents the default action. -/
theorem validateForm_spec (d : FormDoc) (fn fe fp fs fm : Field) (gn ge gp gs gm : Nat)
    (hn : d.fieldById (lit "name") = some fn) (he : d.fieldById (lit "email") = some fe)
    (hp : d.fieldById (lit "phone") = some fp) (hs : d.fieldById (lit "service") = some fs)
    (hm : d.fieldById (lit "message") = some fm)
    (hgn : fn.formGroup = some gn) (hge : fe.formGroup = some ge)
    (hgp : fp.formGroup = some gp) (hgs : fs.formGroup = some gs)
    (hgm : fm.formGroup = some gm) (hdistinct : [gn, ge, gp, gs, gm].Nodup) :
    ∃ d' b, validateForm d = .ok (d', b) ∧
      (b = true ↔ Returns fn true ∧ Returns fe true ∧ Returns fp true ∧ Returns fs true ∧
        Returns fm true) ∧
      (∀ p ∈ [(fn, gn), (fe, ge), (fp, gp), (fs, gs), (fm, gm)],
        (Returns p.1 false → d'.groupError p.2 = true) ∧
        (Returns p.1 true → d'.groupError p.2 = false)) ∧
      (handleFormSubmission d).result = .ok (d', b) ∧
      ∀ d0, (handleFormSubmission d0).defaultPrevented = true := by
  obtain ⟨d', hd, hg⟩ := validateForm_ok d fn fe fp fs fm gn ge gp gs gm hn he hp hs hm
    hgn hge hgp hgs hgm
  refine ⟨d', _, hd, ?_, ?_, ?_, handleFormSubmission_prevents⟩
  · rw [returns_iff fn gn hgn, returns_iff fe ge hge, returns_iff fp gp hgp,
      returns_iff fs gs hgs, returns_iff fm gm hgm]
    simp only [Bool.and_eq_true, and_assoc]
  · simp only [List.nodup_cons, List.mem_cons, List.mem_singleton, not_or, List.not_mem_nil,
      not_false_eq_true, List.nodup_nil, and_true] at hdistinct
    obtain ⟨⟨h12, h13, h14, h15⟩, ⟨h23, h24, h25⟩, ⟨h34, h35⟩, h45⟩ := hdistinct
    intro p hp'
    simp only [List.mem_cons, List.mem_singleton, List.not_mem_nil, or_false] at hp'
    rcases hp' with rfl | rfl | rfl | rfl | rfl
    · rw [returns_iff fn gn hgn, returns_iff fn gn hgn, hg]
      simp only [setGroupError, if_neg h12, if_neg h13, if_neg h14, if_neg h15, if_true]
      constructor <;> intro h <;> simp [h]
    · rw [returns_iff fe ge hge, returns_iff fe ge hge, hg]
      simp only [setGroupError, if_neg h23, if_neg h24, if_neg h25, if_true]
      constructor <;> intro h <;> simp [h]
    · rw [returns_iff fp gp hgp, returns_iff fp gp hgp, hg]
      simp only [setGroupError, if_neg h34, if_neg h35, if_true]
      constructor <;> intro h <;> simp [h]
    · rw [returns_iff fs gs hgs, returns_iff fs gs hgs, hg]
      simp only [setGroupError, if_neg h45, if_true]
      constructor <;> intro h <;> simp [h]
    · rw [returns_iff fm gm hgm, returns_iff fm gm hgm, hg]
      simp only [setGroupError, if_true]
      constructor <;> intro h <;> simp [h]
  · unfold handleFormSubmission
    rw [hd]
    simp only
    split <;> rename_i h <;> simp [h]

theorem validateForm_spec_witness :
    [3, 1, 2, 0, 4].Nodup ∧
      ∃ d' b, validateForm sampleDoc = .ok (d', b) ∧
        (b = true ↔ Returns (nameField (lit "Mona")) true ∧
          Returns (emailField (lit "mona@example")) true ∧
          Returns (phoneField (lit "+20 100 555 1234")) true ∧
          Returns blankService true ∧
          Returns (messageField (lit "Business cards, 500 pieces")) true) ∧
        (∀ p ∈ [(nameField (lit "Mona"), 3), (emailField (lit "mona@example"), 1),
            (phoneField (lit "+20 100 555 1234"), 2), (blankService, 0),
            (messageField (lit "Business cards, 500 pieces"), 4)],
          (Returns p.1 false → d'.groupError p.2 = true) ∧
          (Returns p.1 true → d'.groupError p.2 = false)) ∧
        (handleFormSubmission sampleDoc).result = .ok (d', b) ∧
        ∀ d0, (handleFormSubmission d0).defaultPrevented = true :=
  ⟨by decide,
    validateForm_spec sampleDoc (nameField (lit "Mona")) (emailField (lit "mona@example"))
      (phoneField (lit "+20 100 555 1234")) blankService
      (messageField (lit "Business cards, 500 pieces")) 3 1 2 0 4
      (by decide) (by decide) (by decide) (by decide) (by decide)
      rfl rfl rfl rfl rfl (by decide)⟩

/-! ## Theorems: portfolio filter -/

/-- C4 (the code with a timer still pending): the filter `banners` followed
50 ms later by the filter `all` leaves the only item, after all timers have
fired, with display `none` and the class `hide`, although the category is
`all`. -/
theorem filter_quickSwitch_hidden :
    quickSwitch.timers = [] ∧
      quickSwitch.items = [{ cardsItem with display := lit "none", hide := true }] ∧
      (quickSwitch.items.map Item.shown) = [false] ∧
      (quickSwitch.items.map Item.hidden) = [true] := by
  decide

/-! ### The filter on a page without pending timers -/

theorem timersOf_enqueue_ne (i : Nat) (t : ItemTimer) (q : List ItemTimer)
    (h : t.action.target ≠ i) : timersOf i (enqueue t q) = timersOf i q := by
  induction q with
  | nil => simp [enqueue, timersOf, h]
  | cons x q ih =>
    simp only [enqueue]
    split_ifs
    · simp only [timersOf, List.filter_cons] at ih ⊢
      rw [ih]
    · simp [timersOf, List.filter_cons, h]

theorem timersOf_enqueue_eq (i : Nat) (t : ItemTimer) (q : List ItemTimer)
    (h : t.action.target = i) (hq : timersOf i q = []) : timersOf i (enqueue t q) = [t] := by
  induction q with
  | nil => simp [enqueue, timersOf, h]
  | cons x q ih =>
    have hx : (x.action.target == i) = false := by
      by_contra hx
      simp only [Bool.not_eq_false] at hx
      simp [timersOf, List.filter_cons, hx] at hq
    have hq' : timersOf i q = [] := by
      simpa [timersOf, List.filter_cons, hx] using hq
    simp only [enqueue]
    split_ifs
    · simp only [timersOf, List.filter_cons, hx] at ih ⊢
      simpa using ih hq'
    · have ht : (t.action.target == i) = true := by simpa using h
      simp only [timersOf, List.filter_cons, ht, hx, if_true] at hq' ⊢
      simp [hq']

theorem filterItem_now (c : Option JSString) (p : Portfolio) (j : Nat) :
    (filterItem c p j).now = p.now := by
  unfold filterItem
  split
  · rfl
  · split_ifs <;> rfl

theorem filterItem_length (c : Option JSString) (p : Portfolio) (j : Nat) :
    (filterItem c p j).items.length = p.items.length := by
  unfold filterItem
  split
  · rfl
  · split_ifs <;> simp [setItemTimeout, modifyItem]

theorem filterItem_items_ne (c : Option JSString) (p : Portfolio) (j i : Nat) (h : j ≠ i) :
    (filterItem c p j).items[i]? = p.items[i]? := by
  unfold filterItem
  split
  · rfl
  · split_ifs <;> simp [setItemTimeout, modifyItem, List.getElem?_modify_ne _ _ h]

theorem filterItem_items_eq (c : Option JSString) (p : Portfolio) (i : Nat) :
    (filterItem c p i).items[i]? = (p.items[i]?).map (syncStep c) := by
  unfold filterItem
  split
  · rename_i h; simp [h]
  · rename_i it h
    split_ifs with hm <;> simp [setItemTimeout, modifyItem, h, syncStep, hm]

theorem filterItem_timers_ne (c : Option JSString) (p : Portfolio) (j i : Nat) (h : j ≠ i) :
    timersOf i (filterItem c p j).timers = timersOf i p.timers := by
  unfold filterItem
  split
  · rfl
  · split_ifs <;>
      simp [setItemTimeout, modifyItem, timersOf_enqueue_ne, ItemAction.target, h]

theorem filterItem_timers_eq (c : Option JSString) (p : Portfolio) (i : Nat) (it : Item)
    (h : p.items[i]? = some it) (hq : timersOf i p.timers = []) :
    timersOf i (filterItem c p i).timers = [timerFor c p.now i it] := by
  unfold filterItem
  simp only [h]
  split_ifs with hm
  · simp only [setItemTimeout, modifyItem, timerFor, hm, if_true]
    exact timersOf_enqueue_eq i _ _ rfl hq
  · simp only [setItemTimeout, modifyItem, timerFor, hm]
    exact timersOf_enqueue_eq i _ _ rfl hq

theorem filterItem_none (c : Option JSString) (p : Portfolio) (i : Nat)
    (h : p.items[i]? = none) : filterItem c p i = p := by
  unfold filterItem
  simp [h]

theorem filter_fold (c : Option JSString) (p : Portfolio) (hq : p.timers = []) (i : Nat) :
    ∀ n, ((List.range n).foldl (filterItem c) p).now = p.now ∧
      ((List.range n).foldl (filterItem c) p).items[i]? =
        (if i < n then (p.items[i]?).map (syncStep c) else p.items[i]?) ∧
      timersOf i ((List.range n).foldl (filterItem c) p).timers =
        (if i < n then ((p.items[i]?).map (timerFor c p.now i)).toList else []) := by
  intro n
  induction n with
  | zero => simp [hq, timersOf]
  | succ n ih =>
    obtain ⟨h1, h2, h3⟩ := ih
    rw [List.range_succ, List.foldl_append]
    simp only [List.foldl_cons, List.foldl_nil]
    by_cases hn : n = i
    · subst hn
      simp only [lt_irrefl, if_false] at h2 h3
      simp only [Nat.lt_succ_self, if_true]
      refine ⟨by rw [filterItem_now, h1], ?_, ?_⟩
      · rw [filterItem_items_eq, h2]
      · cases hit : p.items[n]? with
        | none =>
          rw [filterItem_none _ _ _ (by rw [h2, hit]), h3]
          rfl
        | some it =>
          rw [filterItem_timers_eq c _ n it (by rw [h2, hit]) h3, h1]
          rfl
    · refine ⟨by rw [filterItem_now, h1], ?_, ?_⟩
      · rw [filterItem_items_ne _ _ _ _ hn, h2]
        have : (i < n + 1) = (i < n) := by
          apply propext; constructor <;> intro h <;> omega
        simp only [this]
      · rw [filterItem_timers_ne _ _ _ _ hn, h3]
        have : (i < n + 1) = (i < n) := by
          apply propext; constructor <;> intro h <;> omega
        simp only [this]

theorem runAction_items (p : Portfolio) (a : ItemAction) (i : Nat) :
    (runAction p a).items[i]? =
      (p.items[i]?).map (fun it => if a.target = i then applyAction it a else it) := by
  cases a <;>
    simp only [runAction, modifyItem, List.getElem?_modify, ItemAction.target, applyAction] <;>
    rfl

theorem timersOf_cons (i : Nat) (t : ItemTimer) (q : List ItemTimer) :
    timersOf i (t :: q) = if t.action.target = i then t :: timersOf i q else timersOf i q := by
  by_cases ht : t.action.target = i
  · have ht' : (t.action.target == i) = true := by simpa using ht
    simp only [timersOf, List.filter_cons, ht', if_true, if_pos ht]
  · have ht' : (t.action.target == i) = false := by simpa using ht
    simp only [timersOf, List.filter_cons, ht', if_neg ht]
    rfl

theorem fireQueue_items (i : Nat) (q : List ItemTimer) :
    ∀ p : Portfolio, (fireQueue q p).items[i]? =
      (p.items[i]?).map
        (fun it => (timersOf i q).foldl (fun it t => applyAction it t.action) it) := by
  induction q with
  | nil => intro p; simp [fireQueue, timersOf]
  | cons t q ih =>
    intro p
    simp only [fireQueue]
    rw [ih, runAction_items, timersOf_cons]
    by_cases ht : t.action.target = i
    · rw [if_pos ht]
      simp only [if_pos ht, List.foldl_cons]
      cases p.items[i]? <;> rfl
    · rw [if_neg ht]
      simp only [if_neg ht]
      cases p.items[i]? <;> rfl

theorem fireQueue_timers (q : List ItemTimer) :
    ∀ p : Portfolio, p.timers = q → (fireQueue q p).timers = [] := by
  induction q with
  | nil => intro p h; simpa [fireQueue] using h
  | cons t q ih =>
    intro p _
    simp only [fireQueue]
    apply ih
    cases t.action <;> rfl

theorem settled_eq (c : Option JSString) (now i : Nat) (it : Item) :
    applyAction (syncStep c it) (timerFor c now i it).action = settled c it := by
  unfold syncStep timerFor settled
  split_ifs <;> rfl

/-- On a page without pending timers the filter does what its name says:
after `filterPortfolioItems(category)` and its timers, every item is shown
if `category` is `'all'` or equals its `data-category` and hidden otherwise,
and no timer is left. -/
theorem filter_quiet (c : Option JSString) (p : Portfolio) (hq : p.timers = []) :
    (runTimers (filterPortfolioItems c p)).items = p.items.map (settled c) ∧
      (runTimers (filterPortfolioItems c p)).timers = [] ∧
      ∀ it ∈ (runTimers (filterPortfolioItems c p)).items,
        (it.shown = true ↔ (c = some (lit "all") ∨ it.category = c)) ∧
        (it.hidden = true ↔ ¬ (c = some (lit "all") ∨ it.category = c)) := by
  have hitems : (runTimers (filterPortfolioItems c p)).items = p.items.map (settled c) := by
    apply List.ext_getElem?
    intro i
    obtain ⟨h1, h2, h3⟩ := filter_fold c p hq i p.items.length
    simp only [runTimers, filterPortfolioItems]
    rw [fireQueue_items, h2, h3, List.getElem?_map]
    by_cases hi : i < p.items.length
    · simp only [hi, if_true, List.getElem?_eq_getElem hi, Option.map_some', Option.toList,
        List.foldl_cons, List.foldl_nil, settled_eq]
    · have : p.items[i]? = none := List.getElem?_eq_none (by omega)
      simp [hi, this]
  refine ⟨hitems, fireQueue_timers _ _ rfl, ?_⟩
  intro it hit
  rw [hitems, List.mem_map] at hit
  obtain ⟨it0, -, rfl⟩ := hit
  have hbn : (lit "block" = lit "none") = False := eq_false (by decide)
  have hnb : (lit "none" = lit "block") = False := eq_false (by decide)
  unfold settled
  by_cases hm : matchesCategory c it0 = true
  · have hm' : c = some (lit "all") ∨ it0.category = c := by
      simpa [matchesCategory] using hm
    rw [if_pos hm]
    simp [Item.shown, Item.hidden, hm', hbn]
  · have hm' : ¬ (c = some (lit "all") ∨ it0.category = c) := by
      simpa [matchesCategory] using hm
    rw [if_neg hm]
    simp [Item.shown, Item.hidden, hm', hnb]

/-! ## Theorems: lightbox -/

theorem foldl_plain_of_ne (images : List GalleryImage) (target : Node)
    (ht : target ≠ .lightbox) (l : List Node) (hl : ∀ n ∈ l, n.plain = true) (s : Lightbox) :
    l.foldl (clickListeners images target) s = s := by
  induction l generalizing s with
  | nil => rfl
  | cons n l ih =>
    have hn := hl n (List.mem_cons_self _ _)
    have hs : clickListeners images target s n = s := by
      cases n with
      | galleryImg i => simp [Node.plain] at hn
      | lightboxClose => simp [Node.plain] at hn
      | lightbox => simp [clickListeners, ht]
      | other k => rfl
    rw [List.foldl_cons, hs]
    exact ih (fun m hm => hl m (List.mem_cons_of_mem _ hm)) s

theorem foldl_other (images : List GalleryImage) (target : Node)
    (l : List Node) (hl : ∀ n ∈ l, ∃ k, n = .other k) (s : Lightbox) :
    l.foldl (clickListeners images target) s = s := by
  induction l generalizing s with
  | nil => rfl
  | cons n l ih =>
    obtain ⟨k, rfl⟩ := hl n (List.mem_cons_self _ _)
    rw [List.foldl_cons]
    exact ih (fun m hm => hl m (List.mem_cons_of_mem _ hm)) s

/-- C5: the lightbox listeners. A click on a gallery image opens the
lightbox with the image's `src` and `alt` and the title of its portfolio
item and sets the body overflow to `hidden`; a click on the close button, a
click on the backdrop itself and an Escape keydown while the lightbox is
active close it and set the body overflow to `auto`; a click on another
element inside the lightbox and any key other than Escape change nothing.
The ancestors of a target are the backdrop or elements without lightbox
listener. -/
theorem lightbox_spec (images : List GalleryImage) (s : Lightbox) :
    (∀ i img title anc, images[i]? = some img → img.title = some title →
      (∀ n ∈ anc, n.plain = true) →
      dispatchClick images ⟨.galleryImg i, anc⟩ s =
        { active := true, bodyOverflow := lit "hidden", imgSrc := img.src,
          imgAlt := img.alt, titleText := title }) ∧
    (∀ anc, (∀ n ∈ anc, n.plain = true) →
      dispatchClick images ⟨.lightboxClose, anc⟩ s =
        { s with active := false, bodyOverflow := lit "auto" }) ∧
    (∀ anc, (∀ n ∈ anc, ∃ k, n = .other k) →
      dispatchClick images ⟨.lightbox, anc⟩ s =
        { s with active := false, bodyOverflow := lit "auto" }) ∧
    (s.active = true →
      onKeydown (lit "Escape") s = { s with active := false, bodyOverflow := lit "auto" }) ∧
    (∀ k anc, .lightbox ∈ anc → (∀ n ∈ anc, n.plain = true) →
      dispatchClick images ⟨.other k, anc⟩ s = s) ∧
    (∀ key, key ≠ lit "Escape" → onKeydown key s = s) := by
  refine ⟨?_, ?_, ?_, ?_, ?_, ?_⟩
  · intro i img title anc hi ht hanc
    simp only [dispatchClick, List.foldl_cons]
    rw [foldl_plain_of_ne images _ (by simp) anc hanc]
    have hitem : img.item = some (some title) := by
      unfold GalleryImage.title at ht
      cases hi' : img.item with
      | none => rw [hi'] at ht; simp at ht
      | some o =>
        rw [hi'] at ht
        have ho : o = some title := ht
        rw [ho]
    simp [clickListeners, hi, onImageClick, hitem]
  · intro anc hanc
    simp only [dispatchClick, List.foldl_cons]
    rw [foldl_plain_of_ne images _ (by simp) anc hanc]
    rfl
  · intro anc hanc
    simp only [dispatchClick, List.foldl_cons]
    rw [foldl_other images _ anc hanc]
    simp [clickListeners, closeLightbox]
  · intro ha
    simp [onKeydown, ha, closeLightbox]
  · intro k anc _ hanc
    simp only [dispatchClick, List.foldl_cons]
    rw [foldl_plain_of_ne images _ (by simp) anc hanc]
    rfl
  · intro key hkey
    simp [onKeydown, hkey]

theorem lightbox_spec_witness :
    dispatchClick sampleGallery ⟨.galleryImg 0, [.other 0]⟩ closedLightbox =
        { active := true, bodyOverflow := lit "hidden", imgSrc := lit "img/cards.jpg",
          imgAlt := lit "Cards", titleText := lit "Business cards" } ∧
      dispatchClick sampleGallery ⟨.lightboxClose, [.lightbox, .other 0]⟩ openLightbox =
        { openLightbox with active := false, bodyOverflow := lit "auto" } ∧
      dispatchClick sampleGallery ⟨.lightbox, [.other 0]⟩ openLightbox =
        { openLightbox with active := false, bodyOverflow := lit "auto" } ∧
      onKeydown (lit "Escape") openLightbox =
        { openLightbox with active := false, bodyOverflow := lit "auto" } ∧
      dispatchClick sampleGallery ⟨.other 7, [.lightbox, .other 0]⟩ openLightbox =
        openLightbox ∧
      onKeydown (lit "Enter") openLightbox = openLightbox :=
  ⟨(lightbox_spec sampleGallery closedLightbox).1 0 _ _ [.other 0] rfl rfl (by decide),
    (lightbox_spec sampleGallery openLightbox).2.1 [.lightbox, .other 0] (by decide),
    (lightbox_spec sampleGallery openLightbox).2.2.1 [.other 0] (by simp),
    (lightbox_spec sampleGallery openLightbox).2.2.2.1 rfl,
    (lightbox_spec sampleGallery openLightbox).2.2.2.2.1 7 [.lightbox, .other 0] (by simp)
      (by decide),
    (lightbox_spec sampleGallery openLightbox).2.2.2.2.2 (lit "Enter") (by decide)⟩

/-! ## Theorems: `throttle` -/

theorem windowOpen_concat {θ α : Type} (log : List (ThrottleObs θ α)) (x : ThrottleObs θ α) :
    windowOpen (log ++ [x]) = freeAfter (x :: log.reverse) := by
  simp [windowOpen]

theorem replay_append {θ α σ : Type} (func : θ → α → σ → FuncStep θ α σ) (w : σ)
    (l1 l2 : List (ThrottleObs θ α)) :
    replay func w (l1 ++ l2) = replay func (replay func w l1) l2 := by
  induction l1 generalizing w with
  | nil => rfl
  | cons x l ih =>
    cases x <;> simp only [List.cons_append, replay] <;> exact ih _

theorem released_of_freeAfter {θ α : Type} (r t : List (ThrottleObs θ α)) (c : θ) (a : α)
    (h : freeAfter (r ++ .invoked c a :: t) = true) : .released ∈ r := by
  induction r with
  | nil => simp [freeAfter] at h
  | cons x r ih =>
    cases x with
    | invoked c' a' => simp [freeAfter] at h
    | dropped c' a' =>
      simp only [List.cons_append, freeAfter] at h
      exact List.mem_cons_of_mem _ (ih h)
    | released => exact List.mem_cons_self _ _

theorem released_of_windowOpen {θ α : Type} (l1 l2 : List (ThrottleObs θ α)) (c : θ) (a : α)
    (h : windowOpen (l1 ++ .invoked c a :: l2) = true) : .released ∈ l2 := by
  have h' : freeAfter (l2.reverse ++ .invoked c a :: l1.reverse) = true := by
    simpa [windowOpen] using h
  simpa using released_of_freeAfter _ _ c a h'

theorem spaced_concat {θ α : Type} (log : List (ThrottleObs θ α)) (x : ThrottleObs θ α)
    (hs : Spaced log) (hx : ∀ c a, x = .invoked c a → windowOpen log = true) :
    Spaced (log ++ [x]) := by
  intro l1 l2 l3 c1 a1 c2 a2 h
  rcases List.eq_nil_or_concat l3 with rfl | ⟨l3', y, rfl⟩
  · have h' : log ++ [x] = (l1 ++ .invoked c1 a1 :: l2) ++ [.invoked c2 a2] := by
      simpa using h
    obtain ⟨h1, h2⟩ := List.append_inj' h' rfl
    have hx' : x = .invoked c2 a2 := by simpa using h2
    have := hx c2 a2 hx'
    rw [h1] at this
    exact released_of_windowOpen _ _ _ _ this
  · have h' : log ++ [x] = (l1 ++ .invoked c1 a1 :: (l2 ++ .invoked c2 a2 :: l3')) ++ [y] := by
      simpa using h
    obtain ⟨h1, -⟩ := List.append_inj' h' rfl
    exact hs l1 l2 l3' c1 a1 c2 a2 h1

/-- A call while the wrapper is free, for a run of `func` that returns: `func`
ran, then `inThrottle` and a release timer for `limit` ms were set. -/
theorem callThrottled_returns {θ α σ : Type} (func : θ → α → σ → FuncStep θ α σ)
    (limit stack : Nat) (s : Throttle θ α σ) (c : θ) (a : α) (w' : σ)
    (hin : s.inThrottle = false) (hf : func c a s.world = .returns w') :
    callThrottled func limit stack s c a =
      ({ inThrottle := true, timers := s.timers ++ [s.now + limit], now := s.now, world := w',
         log := s.log ++ [.invoked c a], invokedAt := s.invokedAt ++ [s.now] }, true) := by
  simp [callThrottled, callBody, hin, hf, arm]

/-- A call while `inThrottle` is set does nothing. -/
theorem callThrottled_dropped {θ α σ : Type} (func : θ → α → σ → FuncStep θ α σ)
    (limit stack : Nat) (s : Throttle θ α σ) (c : θ) (a : α) (hin : s.inThrottle = true) :
    callThrottled func limit stack s c a =
      ({ s with log := s.log ++ [.dropped c a] }, true) := by
  simp [callThrottled, callBody, hin]

theorem throttleInv_init {θ α σ : Type} (func : θ → α → σ → FuncStep θ α σ) (limit : Nat)
    (w : σ) : ThrottleInv func limit w (Throttle.init w : Throttle θ α σ) := by
  refine ⟨rfl, rfl, ?_, ?_, ?_, ?_, ?_⟩
  · intro l1 l2 l3 c1 a1 c2 a2 h
    simp [Throttle.init] at h
  · intro h; simp [Throttle.init] at h
  · intro _; simp [Throttle.init]
  · simp [Throttle.init]
  · simp [Throttle.init]

theorem throttleInv_step {θ α σ : Type} (func : θ → α → σ → FuncStep θ α σ)
    (hfunc : Plain func) (limit stack : Nat) (w : σ) (s : Throttle θ α σ)
    (e : ThrottleEvent θ α) (h : ThrottleInv func limit w s) :
    ThrottleInv func limit w (throttleStep func limit stack s e) := by
  obtain ⟨hf, hw, hs, harm, hfree, hpast, hapart⟩ := h
  cases e with
  | call c a =>
    simp only [throttleStep, throttled]
    by_cases hin : s.inThrottle = true
    · rw [callThrottled_dropped func limit stack s c a hin]
      refine ⟨?_, ?_, ?_, harm, hfree, hpast, hapart⟩
      · simp only [windowOpen_concat, freeAfter]
        exact hf
      · simp only [replay_append, replay]; exact hw
      · exact spaced_concat _ _ hs (by intro c' a' h'; cases h')
    · have hin' : s.inThrottle = false := by simpa using hin
      obtain ⟨w', hw'⟩ := hfunc c a s.world
      obtain ⟨ht, hlim⟩ := hfree hin'
      rw [callThrottled_returns func limit stack s c a w' hin' hw']
      refine ⟨?_, ?_, ?_, ?_, ?_, ?_, ?_⟩
      · simp [windowOpen_concat, freeAfter]
      · simp only [replay_append, replay, ← hw, hw', FuncStep.world]
      · refine spaced_concat _ _ hs ?_
        intro _ _ _
        rw [hin'] at hf
        simpa using hf.symm
      · intro _
        exact ⟨s.invokedAt, s.now, rfl, by simp [ht]⟩
      · intro hc; simp at hc
      · intro t ht'
        simp only [List.mem_append, List.mem_singleton] at ht'
        rcases ht' with ht' | rfl
        · exact hpast t ht'
        · exact le_refl _
      · rw [List.pairwise_append]
        refine ⟨hapart, by simp, ?_⟩
        intro t ht' u hu
        simp only [List.mem_singleton] at hu
        subst hu
        exact hlim t ht'
  | timer =>
    simp only [throttleStep, release]
    split
    · exact ⟨hf, hw, hs, harm, hfree, hpast, hapart⟩
    · rename_i due q htimers
      split_ifs with hdue
      · have hin : s.inThrottle = true := by
          by_contra hc
          have := (hfree (by simpa using hc)).1
          rw [htimers] at this
          exact absurd this (by simp)
        obtain ⟨pre, t, hinv, ht⟩ := harm hin
        rw [htimers] at ht
        simp only [List.cons.injEq] at ht
        obtain ⟨rfl, rfl⟩ := ht
        refine ⟨?_, ?_, ?_, ?_, ?_, hpast, hapart⟩
        · simp [windowOpen_concat, freeAfter]
        · simp only [replay_append, replay]; exact hw
        · exact spaced_concat _ _ hs (by intro c' a' h'; cases h')
        · intro hc; simp at hc
        · intro _
          refine ⟨rfl, ?_⟩
          intro u hu
          rw [hinv] at hu hapart
          simp only [List.mem_append, List.mem_singleton] at hu
          rcases hu with hu | rfl
          · have := (List.pairwise_append.mp hapart).2.2 u hu t (by simp)
            simp only at hdue ⊢
            omega
          · exact hdue
      · exact ⟨hf, hw, hs, harm, hfree, hpast, hapart⟩
  | advance ms =>
    simp only [throttleStep]
    refine ⟨hf, hw, hs, harm, ?_, ?_, hapart⟩
    · intro hin
      obtain ⟨h1, h2⟩ := hfree hin
      refine ⟨h1, ?_⟩
      intro t ht
      have := h2 t ht
      simp only
      omega
    · intro t ht
      have := hpast t ht
      simp only
      omega

theorem throttleInv_run {θ α σ : Type} (func : θ → α → σ → FuncStep θ α σ)
    (hfunc : Plain func) (limit stack : Nat) (w : σ) (es : List (ThrottleEvent θ α)) :
    ThrottleInv func limit w (throttleRun func limit stack w es) := by
  unfold throttleRun
  have : ∀ (s : Throttle θ α σ), ThrottleInv func limit w s →
      ThrottleInv func limit w (es.foldl (throttleStep func limit stack) s) := by
    induction es with
    | nil => intro s hs; exact hs
    | cons e es ih =>
      intro s hs
      exact ih _ (throttleInv_step func hfunc limit stack w s e hs)
  exact this _ (throttleInv_init func limit w)

/-- C8, amended: for every `limit` and every `func` that returns normally
and does not call the throttled function itself, after any sequence of
calls, timer expiries and passing time a call of the throttled function runs
`func` with the call's own `this` and arguments exactly when the release
timer has fired since the last invocation or there was no invocation yet,
and then sets a release timer due `limit` ms later; otherwise it does
nothing. So the first call runs `func` at once, an expiry of the timer never
runs `func`, the page is changed by the recorded invocations only, between
two invocations the timer fired and at least `limit` ms passed, and when
every due timer has fired a call runs `func` exactly when no invocation
happened during the preceding `limit` ms. -/
theorem throttle_spec {θ α σ : Type} (func : θ → α → σ → FuncStep θ α σ)
    (hfunc : Plain func) (limit stack : Nat) (w : σ) (es : List (ThrottleEvent θ α))
    (context : θ) (args : α) :
    (windowOpen (throttleRun func limit stack w es).log = true →
      ∃ w', func context args (throttleRun func limit stack w es).world = .returns w' ∧
        callThrottled func limit stack (throttleRun func limit stack w es) context args =
          ({ inThrottle := true,
             timers := (throttleRun func limit stack w es).timers ++
               [(throttleRun func limit stack w es).now + limit],
             now := (throttleRun func limit stack w es).now,
             world := w',
             log := (throttleRun func limit stack w es).log ++ [.invoked context args],
             invokedAt := (throttleRun func limit stack w es).invokedAt ++
               [(throttleRun func limit stack w es).now] }, true)) ∧
    (windowOpen (throttleRun func limit stack w es).log = false →
      callThrottled func limit stack (throttleRun func limit stack w es) context args =
        ({ throttleRun func limit stack w es with
           log := (throttleRun func limit stack w es).log ++ [.dropped context args] }, true)) ∧
    (∃ w', func context args w = .returns w' ∧
      (throttled func limit stack (Throttle.init w) context args).world = w' ∧
      (throttled func limit stack (Throttle.init w) context args).log =
        [.invoked context args]) ∧
    (release (throttleRun func limit stack w es)).world =
      (throttleRun func limit stack w es).world ∧
    (throttleRun func limit stack w es).world =
      replay func w (throttleRun func limit stack w es).log ∧
    Spaced (throttleRun func limit stack w es).log ∧
    (throttleRun func limit stack w es).invokedAt.Pairwise (fun t u => t + limit ≤ u) ∧
    (∀ due ∈ (throttleRun func limit stack w es).timers,
      ∃ t ∈ (throttleRun func limit stack w es).invokedAt, due = t + limit) ∧
    (OnTime (throttleRun func limit stack w es) →
      (windowOpen (throttleRun func limit stack w es).log = true ↔
        ∀ t ∈ (throttleRun func limit stack w es).invokedAt,
          t + limit ≤ (throttleRun func limit stack w es).now)) := by
  obtain ⟨hf, hw, hs, harm, hfree, -, hapart⟩ := throttleInv_run func hfunc limit stack w es
  have hopen : ∀ b, windowOpen (throttleRun func limit stack w es).log = b →
      (throttleRun func limit stack w es).inThrottle = !b := by
    intro b hb; rw [hf, hb]
  refine ⟨?_, ?_, ?_, ?_, hw, hs, hapart, ?_, ?_⟩
  · intro ho
    obtain ⟨w', hw'⟩ := hfunc context args (throttleRun func limit stack w es).world
    exact ⟨w', hw', callThrottled_returns func limit stack _ context args w'
      (by simpa using hopen true ho) hw'⟩
  · intro ho
    exact callThrottled_dropped func limit stack _ context args (by simpa using hopen false ho)
  · obtain ⟨w', hw'⟩ := hfunc context args w
    refine ⟨w', hw', ?_, ?_⟩
    · rw [throttled, callThrottled_returns func limit stack (Throttle.init w) context args w'
        rfl hw']
    · rw [throttled, callThrottled_returns func limit stack (Throttle.init w) context args w'
        rfl hw']
      rfl
  · unfold release
    split
    · rfl
    · split_ifs <;> rfl
  · intro due hdue
    cases hin : (throttleRun func limit stack w es).inThrottle with
    | false =>
      rw [(hfree hin).1] at hdue
      exact absurd hdue (by simp)
    | true =>
      obtain ⟨pre, t, hinv, ht⟩ := harm hin
      rw [ht] at hdue
      simp only [List.mem_singleton] at hdue
      exact ⟨t, by rw [hinv]; simp, hdue⟩
  · intro hon
    cases hin : (throttleRun func limit stack w es).inThrottle with
    | false =>
      have ho : windowOpen (throttleRun func limit stack w es).log = true := by
        rw [hin] at hf; simpa using hf.symm
      simp only [ho, true_iff]
      exact (hfree hin).2
    | true =>
      have ho : windowOpen (throttleRun func limit stack w es).log = false := by
        rw [hin] at hf; simpa using hf.symm
      obtain ⟨pre, t, hinv, ht⟩ := harm hin
      have hlate := hon (t + limit) (by rw [ht]; simp)
      simp only [ho, Bool.false_eq_true, false_iff, not_forall]
      exact ⟨t, by rw [hinv]; simp, by omega⟩

theorem throttle_spec_witness :
    Plain recordCall ∧
      windowOpen (throttleRun recordCall 100 0 []
        [.call () 1, .call () 2, .advance 120, .timer]).log = true ∧
      ∃ w', recordCall () 3 (throttleRun recordCall 100 0 []
          [.call () 1, .call () 2, .advance 120, .timer]).world = .returns w' ∧
        callThrottled recordCall 100 0 (throttleRun recordCall 100 0 []
            [.call () 1, .call () 2, .advance 120, .timer]) () 3 =
          ({ inThrottle := true,
             timers := (throttleRun recordCall 100 0 []
               [.call () 1, .call () 2, .advance 120, .timer]).timers ++
               [(throttleRun recordCall 100 0 []
                 [.call () 1, .call () 2, .advance 120, .timer]).now + 100],
             now := (throttleRun recordCall 100 0 []
               [.call () 1, .call () 2, .advance 120, .timer]).now,
             world := w',
             log := (throttleRun recordCall 100 0 []
               [.call () 1, .call () 2, .advance 120, .timer]).log ++ [.invoked () 3],
             invokedAt := (throttleRun recordCall 100 0 []
               [.call () 1, .call () 2, .advance 120, .timer]).invokedAt ++
               [(throttleRun recordCall 100 0 []
                 [.call () 1, .call () 2, .advance 120, .timer]).now] }, true) :=
  ⟨fun _ a w => ⟨w ++ [a], rfl⟩, by decide,
    (throttle_spec recordCall (fun _ a w => ⟨w ++ [a], rfl⟩) 100 0 []
      [.call () 1, .call () 2, .advance 120, .timer] () 3).1 (by decide)⟩

/-- C8 as stated fails for some callbacks and schedules. A `func` that
throws is run by two calls in a row, with no timer expiry and no time
between them, because `inThrottle` and the timer are set only after
`func.apply` has returned. A `func` that calls the throttled function is
run twice within one call. And a call 150 ms after the last invocation is
dropped, with `limit` 100, when the due release timer has not fired yet. -/
theorem throttle_not_for_every_func :
    ((throttleRun failingCall 100 0 [] [.call () 1, .call () 2]).log =
        [.invoked () 1, .invoked () 2] ∧
      (throttleRun failingCall 100 0 [] [.call () 1, .call () 2]).world = [1, 2] ∧
      (throttleRun failingCall 100 0 [] [.call () 1, .call () 2]).invokedAt = [0, 0] ∧
      (throttleRun failingCall 100 0 [] [.call () 1, .call () 2]).timers = [] ∧
      ¬ Spaced (throttleRun failingCall 100 0 [] [.call () 1, .call () 2]).log) ∧
    ((throttleRun countdownCall 100 8 [] [.call () 1]).log =
        [.invoked () 1, .invoked () 0] ∧
      (throttleRun countdownCall 100 8 [] [.call () 1]).world = [1, 0] ∧
      ¬ Spaced (throttleRun countdownCall 100 8 [] [.call () 1]).log) ∧
    ((throttleRun recordCall 100 0 [] [.call () 1, .advance 150, .call () 2]).log =
        [.invoked () 1, .dropped () 2] ∧
      (throttleRun recordCall 100 0 [] [.call () 1, .advance 150, .call () 2]).invokedAt =
        [0] ∧
      (throttleRun recordCall 100 0 [] [.call () 1, .advance 150, .call () 2]).now = 150) := by
  have h1 : (throttleRun failingCall 100 0 [] [.call () 1, .call () 2]).log =
      [.invoked () 1, .invoked () 2] := by decide
  have h2 : (throttleRun countdownCall 100 8 [] [.call () 1]).log =
      [.invoked () 1, .invoked () 0] := by decide
  refine ⟨⟨h1, by decide, by decide, by decide, ?_⟩, ⟨h2, by decide, ?_⟩,
    ⟨by decide, by decide, by decide⟩⟩
  · intro hs
    have := hs [] [] [] () 1 () 2 (by rw [h1]; rfl)
    simp at this
  · intro hs
    have := hs [] [] [] () 1 () 0 (by rw [h2]; rfl)
    simp at this

example : (throttleRun recordCall 100 0 []
    [.call () 1, .call () 2, .advance 100, .timer, .call () 3]).world = [1, 3] := by decide

example : (throttleRun recordCall 100 0 []
    [.call () 1, .advance 99, .timer, .call () 2]).world = [1] := by decide

/-! ## Theorems: `debounce` -/

theorem debounced_of_inv {α σ : Type} (wait : Nat) (s : Debounce α σ) (args : α)
    (h : DebounceInv s) :
    (debounced wait s args).pending = [⟨s.nextId, wait, args⟩] := by
  rcases h with h | ⟨t, h, ht⟩
  · simp only [debounced, h]
    cases s.timeout <;> simp [clearTimeout]
  · simp [debounced, h, ht, clearTimeout]

theorem debounceInv_debounced {α σ : Type} (wait : Nat) (s : Debounce α σ) (args : α)
    (h : DebounceInv s) : DebounceInv (debounced wait s args) := by
  right
  exact ⟨⟨s.nextId, wait, args⟩, debounced_of_inv wait s args h, rfl⟩

theorem fireTimer_of_inv {α σ : Type} (func : α → σ → σ) (s : Debounce α σ) (id : Nat)
    (h : DebounceInv s) :
    (fireTimer func s id = s ∧ ∀ t ∈ s.pending, t.id ≠ id) ∨
      ∃ t, s.pending = [t] ∧ t.id = id ∧
        fireTimer func s id =
          { s with pending := [], world := func t.args s.world, log := s.log ++ [t.args] } := by
  rcases h with h | ⟨t, h, ht⟩
  · left
    simp [fireTimer, h]
  · by_cases hid : t.id = id
    · right
      refine ⟨t, h, hid, ?_⟩
      simp [fireTimer, h, hid, later, clearTimeout, ht]
    · left
      refine ⟨?_, ?_⟩
      · simp [fireTimer, h, hid]
      · intro u hu
        rw [h] at hu
        simp only [List.mem_singleton] at hu
        rw [hu]; exact hid

theorem debounceInv_fireTimer {α σ : Type} (func : α → σ → σ) (s : Debounce α σ) (id : Nat)
    (h : DebounceInv s) : DebounceInv (fireTimer func s id) := by
  rcases fireTimer_of_inv func s id h with ⟨h1, -⟩ | ⟨t, -, -, h1⟩
  · rw [h1]; exact h
  · rw [h1]; left; rfl

theorem debounceInv_run {α σ : Type} (func : α → σ → σ) (wait : Nat) (w : σ)
    (es : List (DebounceEvent α)) : DebounceInv (debounceRun func wait w es) := by
  unfold debounceRun
  have : ∀ (s : Debounce α σ), DebounceInv s →
      DebounceInv (es.foldl (debounceStep func wait) s) := by
    induction es with
    | nil => intro s hs; exact hs
    | cons e es ih =>
      intro s hs
      refine ih _ ?_
      cases e with
      | call args => exact debounceInv_debounced wait s args hs
      | timer id => exact debounceInv_fireTimer func s id hs
  exact this _ (Or.inl rfl)

theorem burst_concat {α σ : Type} (wait : Nat) (s : Debounce α σ) (calls : List α)
    (last : α) (h : DebounceInv s) :
    DebounceInv (burst wait s calls) ∧
      (burst wait s (calls ++ [last])).pending =
        [⟨(burst wait s calls).nextId, wait, last⟩] ∧
      (burst wait s (calls ++ [last])).timeout = some (burst wait s calls).nextId ∧
      (burst wait s (calls ++ [last])).world = s.world ∧
      (burst wait s (calls ++ [last])).log = s.log := by
  have key : ∀ (cs : List α) (s : Debounce α σ), DebounceInv s →
      DebounceInv (burst wait s cs) ∧ (burst wait s cs).world = s.world ∧
        (burst wait s cs).log = s.log := by
    intro cs
    induction cs with
    | nil => intro s hs; exact ⟨hs, rfl, rfl⟩
    | cons c cs ih =>
      intro s hs
      obtain ⟨h1, h2, h3⟩ := ih (debounced wait s c) (debounceInv_debounced wait s c hs)
      exact ⟨h1, h2, h3⟩
  obtain ⟨h1, h2, h3⟩ := key calls s h
  have hb : burst wait s (calls ++ [last]) = debounced wait (burst wait s calls) last := by
    simp [burst, List.foldl_append]
  rw [hb]
  exact ⟨h1, debounced_of_inv wait _ last h1, rfl, h2, h3⟩

/-- C9: after any sequence of calls and timer expiries, a call of the
debounced function never runs `func` itself; it cancels the timer of the
previous call, so at most one timer is pending and after a call it is the
call's own; and after a burst of calls with no timer expiry in between the
only pending timer is that of the last call, `func` has not run, and when
that timer fires `func` runs once, with the arguments of the last call, and
no timer is left. -/
theorem debounce_spec {α σ : Type} (func : α → σ → σ) (wait : Nat) (w : σ)
    (es : List (DebounceEvent α)) (calls : List α) (last : α) :
    (∀ args, (debounced wait (debounceRun func wait w es) args).world =
        (debounceRun func wait w es).world ∧
      (debounced wait (debounceRun func wait w es) args).log =
        (debounceRun func wait w es).log) ∧
    (debounceRun func wait w es).pending.length ≤ 1 ∧
    (∀ args, (debounced wait (debounceRun func wait w es) args).pending =
      [⟨(debounceRun func wait w es).nextId, wait, args⟩]) ∧
    ∃ t, (burst wait (debounceRun func wait w es) (calls ++ [last])).pending = [t] ∧
      t.args = last ∧ t.delay = wait ∧
      (burst wait (debounceRun func wait w es) (calls ++ [last])).world =
        (debounceRun func wait w es).world ∧
      (burst wait (debounceRun func wait w es) (calls ++ [last])).log =
        (debounceRun func wait w es).log ∧
      (fireTimer func (burst wait (debounceRun func wait w es) (calls ++ [last])) t.id).world =
        func last (debounceRun func wait w es).world ∧
      (fireTimer func (burst wait (debounceRun func wait w es) (calls ++ [last])) t.id).log =
        (debounceRun func wait w es).log ++ [last] ∧
      (fireTimer func (burst wait (debounceRun func wait w es) (calls ++ [last]))
        t.id).pending = [] := by
  have hinv := debounceInv_run func wait w es
  refine ⟨fun args => ⟨rfl, rfl⟩, ?_, fun args => debounced_of_inv wait _ args hinv, ?_⟩
  · rcases hinv with h | ⟨t, h, -⟩ <;> simp [h]
  · obtain ⟨-, h2, h3, h4, h5⟩ := burst_concat wait _ calls last hinv
    refine ⟨_, h2, rfl, rfl, h4, h5, ?_, ?_, ?_⟩
    · simp [fireTimer, h2, later, h4]
    · simp [fireTimer, h2, later, h5]
    · simp [fireTimer, h2, later, h3, clearTimeout]

example : (debounceRun recordArg 300 [] [.call 1, .call 2, .timer 1, .timer 2]).world = [2] := by
  decide

example : (debounceRun recordArg 300 [] [.call 1, .timer 1, .call 2, .timer 2]).world =
    [1, 2] := by
  decide

/-! ## Theorems: scroll listeners -/

/-- Removing the function `setupScrollEffects` never removes the listener it
registered. -/
theorem removeEventListener_keeps (l : List Callback) (h : .scrollEffects ∈ l) :
    .scrollEffects ∈ removeEventListener l .setupScrollEffects := by
  unfold removeEventListener
  exact (List.mem_erase_of_ne (by decide)).mpr h

/-- C10 (the code after loading): the unthrottled listener of
`setupScrollEffects` is still among the scroll listeners of `window`, next
to `optimizedScrollHandler`; two scroll events with no timer expiry between
them call `highlightActiveNavigation` three times, only one of them through
the throttled handler. Had the removal run after `initializeApp`, it would
have removed nothing either. -/
theorem scroll_listener_not_replaced :
    loadedPage.listeners = [.optimizedScrollHandler, .scrollEffects, .animateOnScroll] ∧
      .scrollEffects ∈ loadedPage.listeners ∧
      (scroll 60 (scroll 10 loadedPage)).handler.world = ⟨60, some true, 3⟩ ∧
      (scroll 60 (scroll 10 loadedPage)).handler.log = [.invoked () (), .dropped () ()] ∧
      (scriptLoad (initializeApp freshPage)).listeners =
        [.scrollEffects, .animateOnScroll, .optimizedScrollHandler] := by
  decide

/-! ## Theorems: smooth-scrolling polyfill -/

theorem easeInOutQuad_zero : easeInOutQuad 0 = 0 := by
  norm_num [easeInOutQuad]

theorem easeInOutQuad_one : easeInOutQuad 1 = 1 := by
  norm_num [easeInOutQuad]

/-- The position the last frame asks for is the target: once 500 ms have
elapsed, `animation` passes `start + distance` to `window.scrollTo`. -/
theorem framePosition_end (a : Animation) (t : ℚ) (h : 500 ≤ timeElapsed a t) :
    framePosition a t = a.start + a.distance := by
  have h1 : (1 : ℚ) ≤ timeElapsed a t / 500 := by
    rw [le_div_iff₀ (by norm_num)]; linarith
  simp [framePosition, min_eq_right h1, easeInOutQuad_one]

theorem polyfill_position (x y : ℚ) (w : ScrollWindow) (h : w.nativeSmooth = false) :
    scrollTo (.position x y) w = w := by
  simp [scrollTo, h, polyfillScrollTo]

theorem animation_fixed (a : Animation) (t : ℚ) (w : ScrollWindow)
    (h : w.nativeSmooth = false) :
    (animation a t w).nativeSmooth = false ∧ (animation a t w).pageYOffset = w.pageYOffset := by
  unfold animation
  simp only [polyfill_position _ _ w h]
  split_ifs <;> exact ⟨h, rfl⟩

theorem animationFrame_fixed (w : ScrollWindow) (t : ℚ) (h : w.nativeSmooth = false) :
    (animationFrame w t).nativeSmooth = false ∧
      (animationFrame w t).pageYOffset = w.pageYOffset := by
  unfold animationFrame
  have key : ∀ (l : List Animation) (v : ScrollWindow), v.nativeSmooth = false →
      (l.foldl (fun w a => animation a t w) v).nativeSmooth = false ∧
        (l.foldl (fun w a => animation a t w) v).pageYOffset = v.pageYOffset := by
    intro l
    induction l with
    | nil => intro v hv; exact ⟨hv, rfl⟩
    | cons a l ih =>
      intro v hv
      obtain ⟨h1, h2⟩ := animation_fixed a t v hv
      obtain ⟨h3, h4⟩ := ih _ h1
      exact ⟨h3, h4.trans h2⟩
  exact key w.frames { w with frames := [] } h

/-- Without native support the page never moves: after
`window.scrollTo({ top: T, behavior: 'smooth' })` and any number of animation
frames the scroll position is the one before the call. -/
theorem polyfill_never_scrolls (w : ScrollWindow) (h : w.nativeSmooth = false) (T : ℚ)
    (times : List ℚ) :
    (times.foldl animationFrame (scrollTo (.options T) w)).pageYOffset = w.pageYOffset := by
  have key : ∀ (l : List ℚ) (v : ScrollWindow), v.nativeSmooth = false →
      (l.foldl animationFrame v).pageYOffset = v.pageYOffset := by
    intro l
    induction l with
    | nil => intro v _; rfl
    | cons t l ih =>
      intro v hv
      obtain ⟨h1, h2⟩ := animationFrame_fixed v t hv
      exact (ih _ h1).trans h2
  have h0 : (scrollTo (.options T) w).nativeSmooth = false ∧
      (scrollTo (.options T) w).pageYOffset = w.pageYOffset := by
    simp [scrollTo, h, polyfillScrollTo]
  exact (key times _ h0.1).trans h0.2

/-- C11 (the code in a browser without native support): after
`window.scrollTo({ top: 1000, behavior: 'smooth' })` at position 0 and the
frames at 0, 250 and 500 ms the scroll position is still 0 and no frame is
pending, although the last frame passed the target 1000 to `window.scrollTo`:
inside `animation` that name is the polyfill itself, which ignores a call
with numbers. The easing function does map 0 to 0 and 1 to 1. -/
theorem smooth_scroll_stays :
    smoothScrollRun.pageYOffset = 0 ∧ smoothScrollRun.frames = [] ∧
      framePosition ⟨0, 1000 - 0, some 0⟩ 500 = 1000 ∧
      scrollTo (.position 0 1000) oldBrowser = oldBrowser ∧
      easeInOutQuad 0 = 0 ∧ easeInOutQuad 1 = 1 := by
  refine ⟨?_, ?_, ?_, rfl, easeInOutQuad_zero, easeInOutQuad_one⟩
  · exact polyfill_never_scrolls oldBrowser rfl 1000 [0, 250, 500]
  · norm_num [smoothScrollRun, animationFrame, animation, scrollTo, polyfillScrollTo,
      oldBrowser, timeElapsed]
  · rw [framePosition_end _ _ (by norm_num [timeElapsed])]
    norm_num

end Script
